import Mathlib

/-!
A shallow embedding of `src/watch.py`: an apartment-availability watcher that
polls a listing page, reduces the scrape to a sorted free list, fingerprints
it, decides which notification (ALERT / STILL / GONE / heartbeat) to send,
and persists `last_free_hash` / `last_heartbeat_key` across invocations.

External collaborators (the `requests` fetch, the BeautifulSoup DOM
traversal, the `re`/`html` status extraction, the `hashlib.sha1` hexdigest,
the Telegram transport and the wall/monotonic clocks) enter the model as
explicit inputs: each loop iteration consumes one `CycleEnv` describing what
those collaborators would have returned, and the sha1 hexdigest is an
abstract parameter `h : String → String`.  Everything else is translated
directly from the Python source.
-/

/-- A free unit as the Python triple `(typ, number, link)` built in
`scrape_once` (watch.py line 131): unit type, display number, optional
detail link. -/
abbrev FreeUnit := String × String × Option String

/-- The persisted state dictionary (watch.py lines 41-51): keys
`last_free_hash` and `last_heartbeat_key`. -/
structure RunState where
  last_free_hash : String
  last_heartbeat_key : String
  deriving Repr, DecidableEq

/-- The module-level tuning constants of watch.py (lines 24-38), gathered
into one record so that theorems can quantify over the configured values. -/
structure Config where
  poll_interval_no_free_sec : ℚ
  poll_interval_free_sec : ℚ
  run_window_sec : ℚ
  min_remaining_to_start_scrape : ℚ
  send_still_messages : Bool
  max_still_per_run : Nat
  deriving Repr, DecidableEq

/-- The concrete constant values of watch.py lines 24-34. -/
def defaultConfig : Config where
  poll_interval_no_free_sec := 30
  poll_interval_free_sec := 10
  run_window_sec := 45
  min_remaining_to_start_scrape := 8
  send_still_messages := true
  max_still_per_run := 3

/-- The monitored unit types, `TARGET_TYPES` (watch.py line 18). -/
def TARGET_TYPES : List String := ["Komfort-Apartment"]

/-- How the persisted state file can present itself to `load_state`. -/
inductive StateFile
  | missing
  | unreadable
  | malformed
  | valid (st : RunState)
  deriving Repr, DecidableEq

/-- The Python exception kinds that can escape `load_state`. -/
inductive LoadErr
  | osError
  | jsonDecodeError
  deriving Repr, DecidableEq

/-- Model of `load_state` (watch.py lines 41-46): `open` + `json.load`
inside `try`, with an `except` clause that catches `FileNotFoundError`
only.  A missing file yields the default dictionary; an unreadable file
(`OSError` other than file-not-found) or malformed JSON
(`json.JSONDecodeError`) propagates out of the function. -/
def load_state : StateFile → Except LoadErr RunState
  | .missing => .ok ⟨"", ""⟩
  | .unreadable => .error .osError
  | .malformed => .error .jsonDecodeError
  | .valid st => .ok st

/-- Drop everything from the first occurrence of "Nr." onwards: the effect
of `re.sub` with pattern `\s*Nr\..*$` on a newline-free title, up to
whitespace that the subsequent `strip()` removes anyway. -/
def dropFromNr : List Char → List Char
  | [] => []
  | c :: cs =>
    if List.isPrefixOf ("Nr.".data) (c :: cs) then [] else c :: dropFromNr cs

/-- Python `str.strip()`: remove leading and trailing whitespace. -/
def pyStrip (cs : List Char) : List Char :=
  ((cs.dropWhile Char.isWhitespace).reverse.dropWhile Char.isWhitespace).reverse

/-- Model of `base_type` (watch.py lines 58-59):
`re.sub` removing a `\s*Nr\..*$` suffix, then `strip()`, for titles without
newline characters. -/
def base_type (title : String) : String :=
  ⟨pyStrip (dropFromNr title.data)⟩

/-- One `a.apartment` anchor as `scrape_once` reads it (watch.py lines
107-131).  The fields hold what the external libraries deliver: `title` is
`a.get("data-original-title") or a.get("title") or ""`, `number` the
whitespace-joined stripped `a.get_text`, `status` and `link` the result of
`extract_status_and_link` on the anchor's `data-text` payload (the external
`re`/`html` extraction of watch.py lines 62-75, status already stripped and
lower-cased), and `hasFreeMarker` whether the token "unit_free" occurs in
that payload (watch.py line 122). -/
structure Anchor where
  title : String
  number : String
  status : Option String
  hasFreeMarker : Bool
  link : Option String
  deriving Repr, DecidableEq

/-- The loop-carried variables of the `for a in anchors` loop of
`scrape_once` (watch.py lines 101-105). -/
structure ScrapeAcc where
  seen : List (String × String)
  free_units : List FreeUnit
  frei : Nat
  reserviert : Nat
  vermietet : Nat
  unknown_status : Nat
  deriving Repr, DecidableEq

/-- The empty accumulator of watch.py lines 101-105. -/
def emptyScrapeAcc : ScrapeAcc := ⟨[], [], 0, 0, 0, 0⟩

/-- The body of the `for a in anchors` loop of `scrape_once` (watch.py lines
107-131): filter to `TARGET_TYPES`, deduplicate by the `(typ, number)` key,
apply the "unit_free" fallback, bump the status counts (the `elif status is
not None` branch bumps `unknown_status`), and append free units. -/
def scrape_step (acc : ScrapeAcc) (a : Anchor) : ScrapeAcc :=
  let typ := base_type a.title
  if typ ∉ TARGET_TYPES then acc
  else
    let key := (typ, a.number)
    if key ∈ acc.seen then acc
    else
      let acc1 := { acc with seen := acc.seen ++ [key] }
      let status := if a.status = none ∧ a.hasFreeMarker then some "frei" else a.status
      let acc2 :=
        if status = some "frei" then { acc1 with frei := acc1.frei + 1 }
        else if status = some "reserviert" then { acc1 with reserviert := acc1.reserviert + 1 }
        else if status = some "vermietet" then { acc1 with vermietet := acc1.vermietet + 1 }
        else if status ≠ none then { acc1 with unknown_status := acc1.unknown_status + 1 }
        else acc1
      if status = some "frei" then
        { acc2 with free_units := acc2.free_units ++ [(typ, a.number, a.link)] }
      else acc2

/-- The tuple returned by `scrape_once` (watch.py lines 133-135). -/
structure ScrapeResult where
  total_komfort : Nat
  free_units_sorted : List FreeUnit
  frei : Nat
  reserviert : Nat
  vermietet : Nat
  unknown_status : Nat
  deriving Repr, DecidableEq

/-- The Python sort key `lambda x: (x[0], x[1])` of watch.py line 134,
compared as Python compares tuples: lexicographically on (type, number). -/
def keyLe (a b : FreeUnit) : Bool :=
  decide (a.1 < b.1) || (decide (a.1 = b.1) && decide (a.2.1 ≤ b.2.1))

/-- The call `sorted(free_units, key=lambda x: (x[0], x[1]))` of watch.py
line 134: a stable sort by the (type, number) key. -/
def sort_free_units (l : List FreeUnit) : List FreeUnit :=
  l.mergeSort keyLe

/-- The pure part of `scrape_once` (watch.py lines 98-135): fold the page's
anchors and package the counts and the sorted free list. -/
def process_anchors (anchors : List Anchor) : ScrapeResult :=
  let acc := anchors.foldl scrape_step emptyScrapeAcc
  { total_komfort := acc.seen.length
    free_units_sorted := sort_free_units acc.free_units
    frei := acc.frei
    reserviert := acc.reserviert
    vermietet := acc.vermietet
    unknown_status := acc.unknown_status }

/-- The exception kinds the fetch of `scrape_once` can raise, matching the
two `except` arms of `main` (watch.py lines 175 and 182). -/
inductive ScrapeErr
  | httpError
  | otherError
  deriving Repr, DecidableEq

/-- Model of `scrape_once` (watch.py lines 86-135): the network fetch either
raises (`requests.HTTPError` from `raise_for_status`, or any other
transport/parse error) or yields the page's anchors, which are folded into
the counts and the sorted free list. -/
def scrape_once (fetch : Except ScrapeErr (List Anchor)) : Except ScrapeErr ScrapeResult :=
  fetch.map process_anchors

/-- One line of the hash payload: the f-string `t|n|(l or '')` of watch.py
line 149. -/
def lineOf (u : FreeUnit) : String :=
  u.1 ++ "|" ++ u.2.1 ++ "|" ++ u.2.2.getD ""

/-- The newline join over the per-unit lines (watch.py line 149). -/
def core : List FreeUnit → String
  | [] => ""
  | [u] => lineOf u
  | u :: us => lineOf u ++ "\n" ++ core us

/-- Model of `free_hash` (watch.py lines 147-150): `sha1(core) if core else
""`.  The external `hashlib.sha1(...).hexdigest()` is abstracted as the
parameter `h`; the empty-payload sentinel is decided on the payload itself,
before `h` is consulted. -/
def free_hash (h : String → String) (l : List FreeUnit) : String :=
  if core l = "" then "" else h (core l)

/-- The fields of `datetime.now(TZ)` that `main` reads: calendar date, hour
and minute. -/
structure Dt where
  year : Nat
  month : Nat
  day : Nat
  hour : Nat
  minute : Nat
  deriving Repr, DecidableEq

/-- A zero-padded two-digit `strftime` field. -/
def pad2 (n : Nat) : String := if n < 10 then "0" ++ toString n else toString n

/-- The zero-padded four-digit `strftime` year field. -/
def pad4 (n : Nat) : String :=
  if n < 10 then "000" ++ toString n
  else if n < 100 then "00" ++ toString n
  else if n < 1000 then "0" ++ toString n
  else toString n

/-- The heartbeat key `now.strftime` with format `%Y-%m-%d_%H` (watch.py
line 193). -/
def hb_key_str (t : Dt) : String :=
  pad4 t.year ++ "-" ++ pad2 t.month ++ "-" ++ pad2 t.day ++ "_" ++ pad2 t.hour

/-- The calendar (date, hour) pair a heartbeat key denotes. -/
def dhPair (t : Dt) : Nat × Nat × Nat × Nat := (t.year, t.month, t.day, t.hour)

/-- A numeric encoding of the (date, hour) pair, used to state that the wall
clock never runs backwards across cycles and invocations. -/
def dhIdx (t : Dt) : Nat :=
  t.year * 1000000 + t.month * 10000 + t.day * 100 + t.hour

/-- The notification messages `main` can send, by kind; the formatted text
(`format_free_message`, the heartbeat body, the failure notes) carries
exactly the data recorded here. -/
inductive Msg
  | alert (units : List FreeUnit)
  | still (n : Nat) (units : List FreeUnit)
  | gone
  | heartbeat (t : Dt)
  | fetchFailNote (e : ScrapeErr)
  deriving Repr, DecidableEq

/-- Observable events of a run, in order: a scrape was started (recording
the remaining budget at that moment), a notification send succeeded, a
notification send raised, the scheduler slept (recording the remaining
budget at that moment). -/
inductive Event
  | fetchStarted (remaining : ℚ)
  | sent (m : Msg)
  | sendFailed (m : Msg)
  | slept (duration remaining : ℚ)
  deriving Repr, DecidableEq

/-- The availability-message decision of `main` (watch.py lines 207-226):
given the sorted free list, the in-memory `last_free_hash` and the number of
STILL messages already sent this run, produce the emitted messages, the new
`last_free_hash` and the new STILL counter.  `had_free` is the Python
truthiness of the list; the three arms follow the if/elif/elif chain. -/
def message_logic (cfg : Config) (h : String → String) (free_units_sorted : List FreeUnit)
    (last_hash : String) (still_sent : Nat) : List Msg × String × Nat :=
  let current_hash := free_hash h free_units_sorted
  if free_units_sorted ≠ [] ∧ current_hash ≠ last_hash then
    ([.alert free_units_sorted], current_hash, still_sent)
  else if free_units_sorted ≠ [] ∧ current_hash = last_hash then
    if cfg.send_still_messages = true ∧ still_sent < cfg.max_still_per_run then
      ([.still (still_sent + 1) free_units_sorted], last_hash, still_sent + 1)
    else ([], last_hash, still_sent)
  else if free_units_sorted = [] ∧ last_hash ≠ "" then
    ([.gone], "", still_sent)
  else
    ([], last_hash, still_sent)

/-- The heartbeat block of `main` (watch.py lines 189-205), evaluated with
the current cycle's `now`.  Returns the events it produces and, unless the
unguarded `send_telegram` raised, the updated state together with the
(always set) `heartbeat_checked` flag; `none` models the delivery exception
escaping `main`. -/
def hb_step (state : RunState) (heartbeat_checked : Bool) (now : Dt) (sendOk : Bool) :
    List Event × Option (RunState × Bool) :=
  if heartbeat_checked then ([], some (state, true))
  else if (now.hour = 10 ∨ now.hour = 18) ∧ now.minute < 5 then
    if state.last_heartbeat_key ≠ hb_key_str now then
      if sendOk then
        ([.sent (.heartbeat now)],
         some ({ state with last_heartbeat_key := hb_key_str now }, true))
      else ([.sendFailed (.heartbeat now)], none)
    else ([], some (state, true))
  else ([], some (state, true))

deriving instance DecidableEq for Except

/-- The environment one loop iteration observes: the wall clock `now`
(watch.py line 166), the monotonic clock sampled at the budget check (line
168) and again before the sleep computation (line 230), the outcome of the
page fetch, and whether each `send_telegram` call site would succeed
(`hbSendOk` the heartbeat send, `mainSendOk` the ALERT/STILL/GONE sends,
`errSendOk` the try-guarded failure-note sends of lines 177-186). -/
structure CycleEnv where
  now : Dt
  t_check : ℚ
  t_after : ℚ
  fetch : Except ScrapeErr (List Anchor)
  hbSendOk : Bool
  mainSendOk : Bool
  errSendOk : Bool
  deriving Repr, DecidableEq

/-- How a run ends: the loop broke normally and `save_state` wrote the final
state (watch.py line 239); an unguarded `send_telegram` raised and the
process died before `save_state`; or the modelled cycle inputs were
exhausted with the loop still running. -/
inductive RunOutcome
  | finished (saved : RunState)
  | crashed
  | ranOut (state : RunState) (still_sent : Nat) (heartbeat_checked : Bool)
  deriving Repr, DecidableEq

/-- The result of one iteration of the `while True` loop: either the loop
breaks (or the process crashes), or it continues with updated loop
variables. -/
inductive CycleOut
  | stop (evs : List Event) (out : RunOutcome)
  | cont (evs : List Event) (state : RunState) (still_sent : Nat) (heartbeat_checked : Bool)
  deriving Repr, DecidableEq

/-- One iteration of the `while True` loop of `main` (watch.py lines
164-237), from the budget check through the sleep.  The ALERT/STILL/GONE
sends are not wrapped in `try`, so a failing send produces `.crashed`; the
failure-note sends after a scrape error are wrapped (lines 177-186), so
their failure still breaks the loop normally. -/
def cycleStep (cfg : Config) (h : String → String) (deadline : ℚ)
    (state : RunState) (still_sent : Nat) (heartbeat_checked : Bool)
    (e : CycleEnv) : CycleOut :=
  let remaining := deadline - e.t_check
  if remaining < cfg.min_remaining_to_start_scrape then
    .stop [] (.finished state)
  else
    match scrape_once e.fetch with
    | .error err =>
        .stop ([.fetchStarted remaining] ++
          (if e.errSendOk then [.sent (.fetchFailNote err)]
           else [.sendFailed (.fetchFailNote err)]))
          (.finished state)
    | .ok res =>
      match hb_step state heartbeat_checked e.now e.hbSendOk with
      | (hbEvs, none) => .stop ([.fetchStarted remaining] ++ hbEvs) .crashed
      | (hbEvs, some (state1, checked1)) =>
        let dec := message_logic cfg h res.free_units_sorted state1.last_free_hash still_sent
        if e.mainSendOk = false ∧ dec.1 ≠ [] then
          .stop ([.fetchStarted remaining] ++ hbEvs ++ dec.1.map Event.sendFailed) .crashed
        else
          let state2 := { state1 with last_free_hash := dec.2.1 }
          let evs0 := [Event.fetchStarted remaining] ++ hbEvs ++ dec.1.map Event.sent
          let interval := if res.free_units_sorted ≠ [] then cfg.poll_interval_free_sec
                          else cfg.poll_interval_no_free_sec
          let remaining2 := deadline - e.t_after
          if remaining2 ≤ 0 then .stop evs0 (.finished state2)
          else
            let sleep_for := min interval remaining2
            if sleep_for < 1/2 then .stop evs0 (.finished state2)
            else .cont (evs0 ++ [.slept sleep_for remaining2]) state2 dec.2.2 checked1

/-- The `while True` loop of `main` together with the trailing `save_state`
(watch.py lines 164-239), driven by one `CycleEnv` per iteration. -/
def runLoop (cfg : Config) (h : String → String) (deadline : ℚ) :
    RunState → Nat → Bool → List CycleEnv → List Event × RunOutcome
  | state, still_sent, heartbeat_checked, [] =>
      ([], .ranOut state still_sent heartbeat_checked)
  | state, still_sent, heartbeat_checked, e :: rest =>
    match cycleStep cfg h deadline state still_sent heartbeat_checked e with
    | .stop evs out => (evs, out)
    | .cont evs state1 still1 checked1 =>
        let r := runLoop cfg h deadline state1 still1 checked1 rest
        (evs ++ r.1, r.2)

/-- Model of `main` (watch.py lines 153-240): load the state (which may
raise), set the deadline to `start + RUN_WINDOW_SEC`, run the loop, and on
normal loop exit write the state back. -/
def main_run (cfg : Config) (h : String → String) (file : StateFile) (start : ℚ)
    (envs : List CycleEnv) : Except LoadErr (List Event × RunOutcome) :=
  match load_state file with
  | .error err => .error err
  | .ok st => .ok (runLoop cfg h (start + cfg.run_window_sec) st 0 false envs)

/-- One scheduled invocation: its monotonic start value and its cycle
inputs. -/
structure RunSpec where
  start : ℚ
  envs : List CycleEnv
  deriving Repr, DecidableEq

/-- Sequential invocations of `main` sharing the persisted state file: a run
that finishes rewrites the file; a crashed (or still-running) run leaves the
previously persisted state in place. -/
def runSeq (cfg : Config) (h : String → String) (persisted : RunState) :
    List RunSpec → List Event × RunState
  | [] => ([], persisted)
  | r :: rest =>
    let res := runLoop cfg h (r.start + cfg.run_window_sec) persisted 0 false r.envs
    match res.2 with
    | .finished st1 =>
        let tail := runSeq cfg h st1 rest
        (res.1 ++ tail.1, tail.2)
    | _ =>
        let tail := runSeq cfg h persisted rest
        (res.1 ++ tail.1, tail.2)

/-- Whether every invocation in the sequence ends by breaking out of its
loop normally, so that `save_state` rewrites the file. -/
def allFinished (cfg : Config) (h : String → String) (persisted : RunState) :
    List RunSpec → Bool
  | [] => true
  | r :: rest =>
    match (runLoop cfg h (r.start + cfg.run_window_sec) persisted 0 false r.envs).2 with
    | .finished st1 => allFinished cfg h st1 rest
    | _ => false

/-- The number of STILL-ALERT notifications actually delivered in a trace. -/
def stillCount : List Event → Nat
  | [] => 0
  | .sent (.still _ _) :: evs => stillCount evs + 1
  | _ :: evs => stillCount evs

/-- The times of the heartbeat notifications actually delivered in a trace,
in order. -/
def hbTimes : List Event → List Dt
  | [] => []
  | .sent (.heartbeat t) :: evs => t :: hbTimes evs
  | _ :: evs => hbTimes evs

/-- A stand-in for the sha1 hexdigest used in concrete instantiations: it
prefixes its input with a marker, so it is injective and never returns the
empty string. -/
def hexStub : String → String := fun s => "#" ++ s

/-- The events an iteration produced, whether it stopped or continued. -/
def evsOf : CycleOut → List Event
  | .stop evs _ => evs
  | .cont evs _ _ _ => evs

/-- The number of ALERT, STILL-ALERT and GONE notifications delivered in a
trace. -/
def availCount : List Event → Nat
  | [] => 0
  | .sent (.alert _) :: evs => availCount evs + 1
  | .sent (.still _ _) :: evs => availCount evs + 1
  | .sent .gone :: evs => availCount evs + 1
  | _ :: evs => availCount evs

/-- C3 (amended): only a missing state file is treated as absence and
replaced by the default state (empty signature, empty heartbeat key), after
which the run proceeds normally; an unreadable or malformed state file makes
`load_state` raise, so the run fails instead of proceeding. -/
theorem c3_missing_state_defaults (cfg : Config) (h : String → String) (start : ℚ)
    (envs : List CycleEnv) :
    main_run cfg h .missing start envs =
      .ok (runLoop cfg h (start + cfg.run_window_sec) ⟨"", ""⟩ 0 false envs) ∧
    main_run cfg h .unreadable start envs = .error .osError ∧
    main_run cfg h .malformed start envs = .error .jsonDecodeError :=
  ⟨rfl, rfl, rfl⟩

/-- C3 counterexample: a malformed persisted state file is not replaced by
the default state; `main` raises during `load_state` instead of
proceeding. -/
theorem c3_counterexample :
    main_run defaultConfig hexStub .malformed 0 [] = .error .jsonDecodeError ∧
    load_state .malformed ≠ .ok ⟨"", ""⟩ :=
  ⟨rfl, by decide⟩

/-- C4 (amended): a monitored-type anchor whose status cannot be determined
(no labelled status and no free marker) is excluded from the FreeList and
from every status bucket, including the Unknown bucket, which counts only
units whose labelled status is an unrecognised word; the unit is still
deduplicated and counted in the monitored total, and the fold over the
remaining anchors continues (non-fatal). -/
theorem c4_undetermined_status_uncounted (acc : ScrapeAcc) (a : Anchor)
    (hs : a.status = none) (hm : a.hasFreeMarker = false) :
    (scrape_step acc a).free_units = acc.free_units ∧
    (scrape_step acc a).unknown_status = acc.unknown_status ∧
    (scrape_step acc a).frei = acc.frei ∧
    (scrape_step acc a).reserviert = acc.reserviert ∧
    (scrape_step acc a).vermietet = acc.vermietet ∧
    (base_type a.title ∈ TARGET_TYPES → (base_type a.title, a.number) ∉ acc.seen →
      (scrape_step acc a).seen = acc.seen ++ [(base_type a.title, a.number)]) ∧
    ∀ rest : List Anchor, rest.foldl scrape_step (scrape_step acc a) =
      (a :: rest).foldl scrape_step acc := by
  simp only [scrape_step, hs, hm, List.foldl_cons]
  by_cases h1 : base_type a.title ∈ TARGET_TYPES
  · by_cases h2 : (base_type a.title, a.number) ∈ acc.seen
    · simp [h1, h2]
    · simp [h1, h2]
  · simp [h1]

/-- C4 counterexample: a monitored anchor with no recoverable status and no
free marker is processed (it is counted in the monitored total) but the
Unknown bucket stays at zero, contradicting the claim that such a unit is
counted under Unknown. -/
theorem c4_counterexample :
    process_anchors [⟨"Komfort-Apartment", "7", none, false, none⟩] =
      ⟨1, [], 0, 0, 0, 0⟩ := by
  simp +decide [process_anchors, scrape_step, emptyScrapeAcc, sort_free_units,
    List.mergeSort, TARGET_TYPES]

theorem c4_witness :
    (scrape_step emptyScrapeAcc ⟨"Komfort-Apartment", "7", none, false, none⟩).free_units =
      emptyScrapeAcc.free_units ∧
    (scrape_step emptyScrapeAcc ⟨"Komfort-Apartment", "7", none, false, none⟩).unknown_status =
      emptyScrapeAcc.unknown_status ∧
    (scrape_step emptyScrapeAcc ⟨"Komfort-Apartment", "7", none, false, none⟩).frei =
      emptyScrapeAcc.frei ∧
    (scrape_step emptyScrapeAcc ⟨"Komfort-Apartment", "7", none, false, none⟩).reserviert =
      emptyScrapeAcc.reserviert ∧
    (scrape_step emptyScrapeAcc ⟨"Komfort-Apartment", "7", none, false, none⟩).vermietet =
      emptyScrapeAcc.vermietet ∧
    (base_type "Komfort-Apartment" ∈ TARGET_TYPES →
      (base_type "Komfort-Apartment", "7") ∉ emptyScrapeAcc.seen →
      (scrape_step emptyScrapeAcc ⟨"Komfort-Apartment", "7", none, false, none⟩).seen =
        emptyScrapeAcc.seen ++ [(base_type "Komfort-Apartment", "7")]) ∧
    ∀ rest : List Anchor, rest.foldl scrape_step
        (scrape_step emptyScrapeAcc ⟨"Komfort-Apartment", "7", none, false, none⟩) =
      ((⟨"Komfort-Apartment", "7", none, false, none⟩ : Anchor) :: rest).foldl scrape_step
        emptyScrapeAcc :=
  c4_undetermined_status_uncounted emptyScrapeAcc ⟨"Komfort-Apartment", "7", none, false, none⟩
    rfl rfl

/-- Helper: the availability decision never emits more than one message. -/
theorem message_logic_length_le_one (cfg : Config) (h : String → String)
    (units : List FreeUnit) (last_hash : String) (still_sent : Nat) :
    (message_logic cfg h units last_hash still_sent).1.length ≤ 1 := by
  by_cases h1 : units ≠ [] ∧ free_hash h units ≠ last_hash
  · simp [message_logic, h1]
  · by_cases h2 : units ≠ [] ∧ free_hash h units = last_hash
    · by_cases h3 : cfg.send_still_messages = true ∧ still_sent < cfg.max_still_per_run
      · simp [message_logic, h1, h2, h3]
      · simp [message_logic, h1, h2, h3]
    · by_cases h4 : units = [] ∧ last_hash ≠ ""
      · simp [message_logic, h1, h2, h4]
      · simp [message_logic, h1, h2, h4]

/-- C2: the Decision Engine acts exactly per the transition table: no free
units with empty last signature emits nothing; free units with a signature
different from last emit exactly one ALERT and set the signature; free units
with an unchanged signature emit at most a STILL-ALERT and leave the
signature unchanged; no free units with a non-empty last signature emit
exactly one GONE and reset the signature to the empty sentinel. -/
theorem c2_transition_table (cfg : Config) (h : String → String)
    (units : List FreeUnit) (last_hash : String) (still_sent : Nat) :
    (units = [] ∧ last_hash = "" →
      message_logic cfg h units last_hash still_sent = ([], last_hash, still_sent)) ∧
    (units ≠ [] ∧ free_hash h units ≠ last_hash →
      message_logic cfg h units last_hash still_sent =
        ([.alert units], free_hash h units, still_sent)) ∧
    (units ≠ [] ∧ free_hash h units = last_hash →
      message_logic cfg h units last_hash still_sent = ([], last_hash, still_sent) ∨
      message_logic cfg h units last_hash still_sent =
        ([.still (still_sent + 1) units], last_hash, still_sent + 1)) ∧
    (units = [] ∧ last_hash ≠ "" →
      message_logic cfg h units last_hash still_sent = ([.gone], "", still_sent)) := by
  refine ⟨fun hc => ?_, fun hc => ?_, fun hc => ?_, fun hc => ?_⟩
  · obtain ⟨h1, h2⟩ := hc
    subst h1; subst h2
    simp [message_logic, free_hash, core]
  · simp [message_logic, hc.1, hc.2]
  · obtain ⟨h1, h2⟩ := hc
    by_cases h3 : cfg.send_still_messages = true ∧ still_sent < cfg.max_still_per_run
    · exact Or.inr (by simp [message_logic, h1, h2, h3])
    · exact Or.inl (by simp [message_logic, h1, h2, h3])
  · obtain ⟨h1, h2⟩ := hc
    subst h1
    simp only [message_logic, free_hash, core]
    simp [h2]

theorem c2_witness :
    (([("Komfort-Apartment", "12", none)] : List FreeUnit) ≠ [] ∧
      free_hash hexStub [("Komfort-Apartment", "12", none)] ≠ "") ∧
    message_logic defaultConfig hexStub [("Komfort-Apartment", "12", none)] "" 0 =
      ([.alert [("Komfort-Apartment", "12", none)]],
        free_hash hexStub [("Komfort-Apartment", "12", none)], 0) :=
  ⟨⟨by decide, by decide⟩,
    (c2_transition_table defaultConfig hexStub [("Komfort-Apartment", "12", none)] "" 0).2.1
      ⟨by decide, by decide⟩⟩

/-- Helper: counting availability notifications over an appended trace adds
up. -/
theorem availCount_append (l1 l2 : List Event) :
    availCount (l1 ++ l2) = availCount l1 + availCount l2 := by
  induction l1 with
  | nil => simp [availCount]
  | cons ev l ih =>
    cases ev with
    | sent m => cases m <;> simp [availCount, ih] <;> omega
    | fetchStarted r => simp [availCount, ih]
    | sendFailed m => simp [availCount, ih]
    | slept d r => simp [availCount, ih]

/-- Helper: delivered messages contribute at most their number of
availability notifications. -/
theorem availCount_map_sent_le (msgs : List Msg) :
    availCount (msgs.map Event.sent) ≤ msgs.length := by
  induction msgs with
  | nil => simp [availCount]
  | cons m l ih => cases m <;> simp [availCount, ih] <;> omega

/-- Helper: failed sends deliver nothing. -/
theorem availCount_map_sendFailed (msgs : List Msg) :
    availCount (msgs.map Event.sendFailed) = 0 := by
  induction msgs with
  | nil => rfl
  | cons m l ih => simpa [availCount] using ih

/-- Helper: the heartbeat block never produces ALERT / STILL / GONE
events. -/
theorem hb_step_availCount (state : RunState) (checked : Bool) (now : Dt) (ok : Bool) :
    availCount (hb_step state checked now ok).1 = 0 := by
  unfold hb_step
  split
  · simp [availCount]
  · split
    · split
      · split <;> simp [availCount]
      · simp [availCount]
    · simp [availCount]

/-- C10: in every single poll cycle at most one availability notification is
emitted: the ALERT / STILL-ALERT / GONE arms are mutually exclusive, so the
decision emits at most one message, and the event trace of a whole loop
iteration contains at most one delivered ALERT / STILL-ALERT / GONE. -/
theorem c10_at_most_one_availability (cfg : Config) (h : String → String)
    (units : List FreeUnit) (last_hash : String) (still_sent : Nat)
    (deadline : ℚ) (state : RunState) (checked : Bool) (e : CycleEnv) :
    (message_logic cfg h units last_hash still_sent).1.length ≤ 1 ∧
    availCount (evsOf (cycleStep cfg h deadline state still_sent checked e)) ≤ 1 := by
  refine ⟨message_logic_length_le_one cfg h units last_hash still_sent, ?_⟩
  simp only [cycleStep]
  split
  · simp [evsOf, availCount]
  · split
    · split <;> simp [evsOf, availCount_append, availCount]
    · rename_i res heq2
      split
      · rename_i hbEvs heq
        have h0 : availCount hbEvs = 0 := by
          have h1 := hb_step_availCount state checked e.now e.hbSendOk
          rw [heq] at h1
          exact h1
        simp [evsOf, availCount_append, availCount, h0]
      · rename_i hbEvs state1 checked1 heq
        have h0 : availCount hbEvs = 0 := by
          have h1 := hb_step_availCount state checked e.now e.hbSendOk
          rw [heq] at h1
          exact h1
        have hd : availCount ((message_logic cfg h res.free_units_sorted
            state1.last_free_hash still_sent).1.map Event.sent) ≤ 1 :=
          le_trans (availCount_map_sent_le _)
            (message_logic_length_le_one cfg h res.free_units_sorted
              state1.last_free_hash still_sent)
        split
        · simp [evsOf, availCount_append, availCount, h0, availCount_map_sendFailed]
        · repeat' split
          all_goals simpa [evsOf, availCount_append, availCount, h0] using hd

/-- Helper: the heartbeat block cannot raise when its send succeeds. -/
theorem hb_step_sendOk_some (state : RunState) (checked : Bool) (now : Dt) :
    ∃ evs st1 ch1, hb_step state checked now true = (evs, some (st1, ch1)) := by
  unfold hb_step
  split
  · exact ⟨_, _, _, rfl⟩
  · split
    · split
      · split
        · exact ⟨_, _, _, rfl⟩
        · rename_i hfalse
          exact absurd rfl hfalse
      · exact ⟨_, _, _, rfl⟩
    · exact ⟨_, _, _, rfl⟩

/-- Helper: when both unguarded send sites succeed, an iteration never
crashes. -/
theorem cycleStep_no_crash (cfg : Config) (h : String → String) (deadline : ℚ)
    (state : RunState) (still_sent : Nat) (checked : Bool) (e : CycleEnv)
    (hhb : e.hbSendOk = true) (hmain : e.mainSendOk = true) :
    ∀ evs, cycleStep cfg h deadline state still_sent checked e ≠ .stop evs .crashed := by
  intro evs
  obtain ⟨evs1, st1, ch1, hstep⟩ := hb_step_sendOk_some state checked e.now
  rw [← hhb] at hstep
  simp only [cycleStep, hstep, hmain]
  split
  · simp
  · split
    · simp
    · rw [if_neg (by simp)]
      split
      · simp
      · split <;> split <;> simp

/-- C1 (amended): only the failure-note sends issued after a scrape error
are best-effort (they sit in a try/except, so a run in which they are the
only failing sends still breaks out of the loop normally and writes its
state); the ALERT / STILL-ALERT / GONE and heartbeat sends are unguarded, so
a delivery error there propagates and aborts the run before `save_state`. -/
theorem c1_only_guarded_sends_best_effort (cfg : Config) (h : String → String)
    (deadline : ℚ) (state : RunState) (checked : Bool) :
    (∀ (envs : List CycleEnv) (still_sent : Nat),
      (∀ e ∈ envs, e.hbSendOk = true ∧ e.mainSendOk = true) →
      (runLoop cfg h deadline state still_sent checked envs).2 ≠ .crashed) ∧
    (∀ (e : CycleEnv) (still_sent : Nat) (err : ScrapeErr),
      scrape_once e.fetch = .error err →
      ¬ deadline - e.t_check < cfg.min_remaining_to_start_scrape →
      cycleStep cfg h deadline state still_sent checked e =
        .stop ([.fetchStarted (deadline - e.t_check)] ++
          (if e.errSendOk then [.sent (.fetchFailNote err)]
           else [.sendFailed (.fetchFailNote err)]))
          (.finished state)) := by
  constructor
  · intro envs
    induction envs generalizing state checked with
    | nil =>
      intro still _ hcr
      exact absurd hcr (by simp [runLoop])
    | cons e rest ih =>
      intro still hok
      have he := hok e (List.mem_cons_self e rest)
      have hrest : ∀ x ∈ rest, x.hbSendOk = true ∧ x.mainSendOk = true :=
        fun x hx => hok x (List.mem_cons_of_mem e hx)
      simp only [runLoop]
      split
      · rename_i evs out heq
        intro hcr
        cases out with
        | finished st1 => exact absurd hcr (by simp)
        | crashed =>
          exact cycleStep_no_crash cfg h deadline state still checked e he.1 he.2 evs heq
        | ranOut st1 still1 ch1 => exact absurd hcr (by simp)
      · rename_i evs state1 still1 checked1 heq
        exact ih state1 checked1 still1 hrest
  · intro e still err herr hrem
    simp only [cycleStep, herr]
    rw [if_neg hrem]

/-- A cycle in which the page shows a free monitored unit and the unguarded
ALERT delivery raises. -/
def envAlertFail : CycleEnv where
  now := ⟨2025, 1, 1, 12, 0⟩
  t_check := 0
  t_after := 5
  fetch := .ok [⟨"Komfort-Apartment", "12", some "frei", false, none⟩]
  hbSendOk := true
  mainSendOk := false
  errSendOk := true

/-- A cycle in which the page fetch raises and the guarded failure note also
fails to send. -/
def envFetchErr : CycleEnv where
  now := ⟨2025, 1, 1, 12, 0⟩
  t_check := 0
  t_after := 0
  fetch := .error .httpError
  hbSendOk := true
  mainSendOk := true
  errSendOk := false

/-- C1 counterexample: a run in which the ALERT delivery raises aborts (the
delivery error escapes `main`) and the updated state is not written at run
end, contradicting the claim that a send failure is never escalated. -/
theorem c1_counterexample :
    (runLoop defaultConfig hexStub 45 ⟨"", ""⟩ 0 false [envAlertFail]).2 = .crashed ∧
    Event.sendFailed (Msg.alert [("Komfort-Apartment", "12", none)]) ∈
      (runLoop defaultConfig hexStub 45 ⟨"", ""⟩ 0 false [envAlertFail]).1 := by
  constructor <;>
    norm_num +decide [runLoop, cycleStep, hb_step, message_logic, scrape_once, Except.map,
      process_anchors, scrape_step, emptyScrapeAcc, sort_free_units, free_hash, core, lineOf,
      defaultConfig, envAlertFail, hexStub, TARGET_TYPES, base_type, dropFromNr, pyStrip,
      List.mergeSort]

theorem c1_witness :
    (∀ e ∈ [envFetchErr], e.hbSendOk = true ∧ e.mainSendOk = true) ∧
    (runLoop defaultConfig hexStub 45 ⟨"", ""⟩ 0 false [envFetchErr]).2 ≠ .crashed ∧
    scrape_once envFetchErr.fetch = .error .httpError ∧
    cycleStep defaultConfig hexStub 45 ⟨"", ""⟩ 0 false envFetchErr =
      .stop ([.fetchStarted (45 - envFetchErr.t_check)] ++
        (if envFetchErr.errSendOk then [.sent (.fetchFailNote .httpError)]
         else [.sendFailed (.fetchFailNote .httpError)]))
        (.finished ⟨"", ""⟩) :=
  ⟨by decide,
   (c1_only_guarded_sends_best_effort defaultConfig hexStub 45 ⟨"", ""⟩ false).1
     [envFetchErr] 0 (by decide),
   rfl,
   (c1_only_guarded_sends_best_effort defaultConfig hexStub 45 ⟨"", ""⟩ false).2
     envFetchErr 0 .httpError rfl (by norm_num [envFetchErr, defaultConfig])⟩

/-- Helper: counting STILL notifications over an appended trace adds up. -/
theorem stillCount_append (l1 l2 : List Event) :
    stillCount (l1 ++ l2) = stillCount l1 + stillCount l2 := by
  induction l1 with
  | nil => simp [stillCount]
  | cons ev l ih =>
    cases ev with
    | sent m => cases m <;> simp [stillCount, ih] <;> omega
    | fetchStarted r => simp [stillCount, ih]
    | sendFailed m => simp [stillCount, ih]
    | slept d r => simp [stillCount, ih]

/-- Helper: failed sends deliver no STILL notification. -/
theorem stillCount_map_sendFailed (msgs : List Msg) :
    stillCount (msgs.map Event.sendFailed) = 0 := by
  induction msgs with
  | nil => rfl
  | cons m l ih => simpa [stillCount] using ih

/-- Helper: the heartbeat block delivers no STILL notification. -/
theorem hb_step_stillCount (state : RunState) (checked : Bool) (now : Dt) (ok : Bool) :
    stillCount (hb_step state checked now ok).1 = 0 := by
  unfold hb_step
  split
  · simp [stillCount]
  · split
    · split
      · split <;> simp [stillCount]
      · simp [stillCount]
    · simp [stillCount]

/-- Helper: one decision either leaves the STILL counter alone and delivers
no STILL message, or (only with the feature enabled and the counter below
the cap) bumps it by one and delivers exactly one STILL message. -/
theorem message_logic_still_spec (cfg : Config) (h : String → String)
    (units : List FreeUnit) (last_hash : String) (still_sent : Nat) :
    ((message_logic cfg h units last_hash still_sent).2.2 = still_sent ∧
      stillCount ((message_logic cfg h units last_hash still_sent).1.map Event.sent) = 0) ∨
    (still_sent < cfg.max_still_per_run ∧ cfg.send_still_messages = true ∧
      (message_logic cfg h units last_hash still_sent).2.2 = still_sent + 1 ∧
      stillCount ((message_logic cfg h units last_hash still_sent).1.map Event.sent) = 1) := by
  by_cases h1 : units ≠ [] ∧ free_hash h units ≠ last_hash
  · exact Or.inl (by simp [message_logic, h1, stillCount])
  · by_cases h2 : units ≠ [] ∧ free_hash h units = last_hash
    · by_cases h3 : cfg.send_still_messages = true ∧ still_sent < cfg.max_still_per_run
      · refine Or.inr ⟨h3.2, h3.1, ?_, ?_⟩ <;> simp [message_logic, h1, h2, h3, stillCount]
      · exact Or.inl (by simp [message_logic, h1, h2, h3, stillCount])
    · by_cases h4 : units = [] ∧ last_hash ≠ ""
      · exact Or.inl (by simp [message_logic, h1, h2, h4, stillCount])
      · exact Or.inl (by simp [message_logic, h1, h2, h4, stillCount])

/-- The STILL-budget invariant of one loop iteration: a stopping iteration
delivers at most the remaining allowance; a continuing one pays for what it
delivered out of the allowance. -/
def StillInv (cfg : Config) (still_sent : Nat) : CycleOut → Prop
  | .stop evs _ => stillCount evs ≤ cfg.max_still_per_run - still_sent
  | .cont evs _ still1 _ =>
      stillCount evs + (cfg.max_still_per_run - still1) ≤
        cfg.max_still_per_run - still_sent

/-- Helper: every iteration satisfies the STILL-budget invariant. -/
theorem cycleStep_still (cfg : Config) (h : String → String) (deadline : ℚ)
    (state : RunState) (still_sent : Nat) (checked : Bool) (e : CycleEnv) :
    StillInv cfg still_sent (cycleStep cfg h deadline state still_sent checked e) := by
  simp only [cycleStep]
  split
  · simp [StillInv, stillCount]
  · split
    · split <;> simp [StillInv, stillCount]
    · rename_i res heq2
      split
      · rename_i hbEvs heq
        have h0 : stillCount hbEvs = 0 := by
          have h1 := hb_step_stillCount state checked e.now e.hbSendOk
          rw [heq] at h1
          exact h1
        simp [StillInv, stillCount_append, stillCount, h0]
      · rename_i hbEvs state1 checked1 heq
        have h0 : stillCount hbEvs = 0 := by
          have h1 := hb_step_stillCount state checked e.now e.hbSendOk
          rw [heq] at h1
          exact h1
        have hspec := message_logic_still_spec cfg h res.free_units_sorted
          state1.last_free_hash still_sent
        split
        · simp [StillInv, stillCount_append, stillCount, h0, stillCount_map_sendFailed]
        · repeat' split
          all_goals
            rcases hspec with ⟨hs1, hs2⟩ | ⟨hlt, hen, hs1, hs2⟩ <;>
              simp [StillInv, stillCount_append, stillCount, h0, hs1, hs2] <;> omega

/-- Helper: the run loop delivers at most the remaining STILL allowance. -/
theorem runLoop_stillCount (cfg : Config) (h : String → String) (deadline : ℚ) :
    ∀ (envs : List CycleEnv) (state : RunState) (still_sent : Nat) (checked : Bool),
    stillCount (runLoop cfg h deadline state still_sent checked envs).1 ≤
      cfg.max_still_per_run - still_sent := by
  intro envs
  induction envs with
  | nil =>
    intro state still_sent checked
    simp [runLoop, stillCount]
  | cons e rest ih =>
    intro state still_sent checked
    have hs := cycleStep_still cfg h deadline state still_sent checked e
    simp only [runLoop]
    split
    · rename_i evs out heq
      rw [heq] at hs
      simpa [StillInv] using hs
    · rename_i evs st1 still1 ch1 heq
      rw [heq] at hs
      simp only [StillInv] at hs
      have ht := ih st1 still1 ch1
      show stillCount (evs ++ (runLoop cfg h deadline st1 still1 ch1 rest).1) ≤ _
      rw [stillCount_append]
      omega

/-- Helper: with the STILL feature disabled one iteration delivers no STILL
notification. -/
theorem cycleStep_still_disabled (cfg : Config) (h : String → String) (deadline : ℚ)
    (state : RunState) (still_sent : Nat) (checked : Bool) (e : CycleEnv)
    (hd : cfg.send_still_messages = false) :
    stillCount (evsOf (cycleStep cfg h deadline state still_sent checked e)) = 0 := by
  simp only [cycleStep]
  split
  · simp [evsOf, stillCount]
  · split
    · split <;> simp [evsOf, stillCount]
    · rename_i res heq2
      split
      · rename_i hbEvs heq
        have h0 : stillCount hbEvs = 0 := by
          have h1 := hb_step_stillCount state checked e.now e.hbSendOk
          rw [heq] at h1
          exact h1
        simp [evsOf, stillCount_append, stillCount, h0]
      · rename_i hbEvs state1 checked1 heq
        have h0 : stillCount hbEvs = 0 := by
          have h1 := hb_step_stillCount state checked e.now e.hbSendOk
          rw [heq] at h1
          exact h1
        have hs2 : stillCount ((message_logic cfg h res.free_units_sorted
            state1.last_free_hash still_sent).1.map Event.sent) = 0 := by
          rcases message_logic_still_spec cfg h res.free_units_sorted
              state1.last_free_hash still_sent with ⟨_, hs2⟩ | ⟨_, hen, _, _⟩
          · exact hs2
          · rw [hd] at hen
            exact absurd hen (by simp)
        split
        · simp [evsOf, stillCount_append, stillCount, h0, stillCount_map_sendFailed]
        · repeat' split
          all_goals simp [evsOf, stillCount_append, stillCount, h0, hs2]

/-- Helper: with the STILL feature disabled the whole run delivers no STILL
notification. -/
theorem runLoop_still_disabled (cfg : Config) (h : String → String) (deadline : ℚ)
    (hd : cfg.send_still_messages = false) :
    ∀ (envs : List CycleEnv) (state : RunState) (still_sent : Nat) (checked : Bool),
    stillCount (runLoop cfg h deadline state still_sent checked envs).1 = 0 := by
  intro envs
  induction envs with
  | nil =>
    intro state still_sent checked
    simp [runLoop, stillCount]
  | cons e rest ih =>
    intro state still_sent checked
    have hs := cycleStep_still_disabled cfg h deadline state still_sent checked e hd
    simp only [runLoop]
    split
    · rename_i evs out heq
      rw [heq] at hs
      simpa [evsOf] using hs
    · rename_i evs st1 still1 ch1 heq
      rw [heq] at hs
      simp only [evsOf] at hs
      show stillCount (evs ++ (runLoop cfg h deadline st1 still1 ch1 rest).1) = 0
      rw [stillCount_append, hs, ih st1 still1 ch1]

/-- C7: however many poll cycles a run executes, the number of STILL-ALERT
messages delivered never exceeds the configured per-run maximum, and no
STILL-ALERT is delivered when the still-message feature is disabled. -/
theorem c7_still_cap (cfg : Config) (h : String → String) (deadline : ℚ)
    (state : RunState) (checked : Bool) (envs : List CycleEnv) :
    stillCount (runLoop cfg h deadline state 0 checked envs).1 ≤ cfg.max_still_per_run ∧
    (cfg.send_still_messages = false →
      stillCount (runLoop cfg h deadline state 0 checked envs).1 = 0) :=
  ⟨by simpa using runLoop_stillCount cfg h deadline envs state 0 checked,
   fun hd => runLoop_still_disabled cfg h deadline hd envs state 0 checked⟩

/-- The source configuration with the STILL feature switched off
(`SEND_STILL_MESSAGES = False`). -/
def cfgNoStill : Config := { defaultConfig with send_still_messages := false }

theorem c7_witness :
    stillCount (runLoop cfgNoStill hexStub 45 ⟨"", ""⟩ 0 false [envFetchErr]).1 ≤
      cfgNoStill.max_still_per_run ∧
    stillCount (runLoop cfgNoStill hexStub 45 ⟨"", ""⟩ 0 false [envFetchErr]).1 = 0 :=
  ⟨(c7_still_cap cfgNoStill hexStub 45 ⟨"", ""⟩ false [envFetchErr]).1,
   (c7_still_cap cfgNoStill hexStub 45 ⟨"", ""⟩ false [envFetchErr]).2 rfl⟩

/-- Helper: the heartbeat block produces only send events. -/
theorem hb_step_only_sends (state : RunState) (checked : Bool) (now : Dt) (ok : Bool) :
    ∀ ev ∈ (hb_step state checked now ok).1,
      ev = Event.sent (.heartbeat now) ∨ ev = Event.sendFailed (.heartbeat now) := by
  unfold hb_step
  split
  · simp
  · split
    · split
      · split <;> simp
      · simp
    · simp

/-- The per-event budget discipline of the scheduler: every scrape starts
with at least the configured minimum remaining budget, and every performed
sleep is clamped to the remaining budget and is at least the minimal useful
threshold of half a second. -/
def BudgetEv (cfg : Config) : Event → Prop
  | .fetchStarted r => cfg.min_remaining_to_start_scrape ≤ r
  | .slept d r => d ≤ r ∧ ¬ d < 1/2
  | _ => True

/-- Helper: every event of one iteration obeys the budget discipline. -/
theorem cycleStep_budget (cfg : Config) (h : String → String) (deadline : ℚ)
    (state : RunState) (still_sent : Nat) (checked : Bool) (e : CycleEnv) :
    ∀ ev ∈ evsOf (cycleStep cfg h deadline state still_sent checked e), BudgetEv cfg ev := by
  simp only [cycleStep]
  split
  · simp [evsOf]
  · rename_i hbudget
    have hf : BudgetEv cfg (Event.fetchStarted (deadline - e.t_check)) := not_lt.mp hbudget
    split
    · split
      all_goals
        intro ev hev
        simp only [evsOf, List.mem_append, List.mem_singleton, List.mem_cons,
          List.not_mem_nil, or_false] at hev
        rcases hev with rfl | rfl
        · exact hf
        · trivial
    · rename_i res heq2
      split
      · rename_i hbEvs heq
        have hbe := hb_step_only_sends state checked e.now e.hbSendOk
        rw [heq] at hbe
        intro ev hev
        simp only [evsOf, List.mem_append, List.mem_singleton, List.mem_cons,
          List.not_mem_nil, or_false] at hev
        rcases hev with rfl | hev
        · exact hf
        · rcases hbe ev hev with rfl | rfl <;> trivial
      · rename_i hbEvs state1 checked1 heq
        have hbe := hb_step_only_sends state checked e.now e.hbSendOk
        rw [heq] at hbe
        have hstop : ∀ ev ∈ ([Event.fetchStarted (deadline - e.t_check)] ++ hbEvs ++
            (message_logic cfg h res.free_units_sorted state1.last_free_hash
              still_sent).1.map Event.sent), BudgetEv cfg ev := by
          intro ev hev
          simp only [List.mem_append, List.mem_singleton, List.mem_cons,
            List.mem_map, List.not_mem_nil, or_false] at hev
          rcases hev with (rfl | hev) | ⟨m, hm, rfl⟩
          · exact hf
          · rcases hbe ev hev with rfl | rfl <;> trivial
          · trivial
        split
        · intro ev hev
          simp only [evsOf, List.mem_append, List.mem_singleton, List.mem_cons,
            List.mem_map, List.not_mem_nil, or_false] at hev
          rcases hev with (rfl | hev) | ⟨m, hm, rfl⟩
          · exact hf
          · rcases hbe ev hev with rfl | rfl <;> trivial
          · trivial
        · split
          · exact hstop
          · split
            · split
              · exact hstop
              · rename_i hsl
                intro ev hev
                rw [show evsOf (CycleOut.cont (([Event.fetchStarted (deadline - e.t_check)] ++
                    hbEvs ++ (message_logic cfg h res.free_units_sorted
                      state1.last_free_hash still_sent).1.map Event.sent) ++
                    [Event.slept (min cfg.poll_interval_free_sec (deadline - e.t_after))
                      (deadline - e.t_after)]) _ _ _) = _ from rfl] at hev
                rcases List.mem_append.mp hev with hev | hev
                · exact hstop ev hev
                · rcases List.mem_singleton.mp hev with rfl
                  exact ⟨min_le_right _ _, hsl⟩
            · split
              · exact hstop
              · rename_i hsl
                intro ev hev
                rcases List.mem_append.mp hev with hev | hev
                · exact hstop ev hev
                · rcases List.mem_singleton.mp hev with rfl
                  exact ⟨min_le_right _ _, hsl⟩

/-- Helper: every event of a whole run obeys the budget discipline. -/
theorem runLoop_budget (cfg : Config) (h : String → String) (deadline : ℚ) :
    ∀ (envs : List CycleEnv) (state : RunState) (still_sent : Nat) (checked : Bool),
    ∀ ev ∈ (runLoop cfg h deadline state still_sent checked envs).1, BudgetEv cfg ev := by
  intro envs
  induction envs with
  | nil =>
    intro state still_sent checked ev hev
    simp [runLoop] at hev
  | cons e rest ih =>
    intro state still_sent checked ev hev
    have hc := cycleStep_budget cfg h deadline state still_sent checked e
    simp only [runLoop] at hev
    split at hev
    · rename_i evs out heq
      rw [heq] at hc
      exact hc ev hev
    · rename_i evs st1 still1 ch1 heq
      rw [heq] at hc
      rcases List.mem_append.mp hev with hev | hev
      · exact hc ev hev
      · exact ih st1 still1 ch1 ev hev

/-- Helper: when the computed sleep would be below the half-second threshold
(or the budget is already exhausted), the iteration stops. -/
theorem cycleStep_stops_when_sleep_small (cfg : Config) (h : String → String) (deadline : ℚ)
    (state : RunState) (still_sent : Nat) (checked : Bool) (e : CycleEnv) (res : ScrapeResult)
    (hres : scrape_once e.fetch = .ok res)
    (hsmall : min (if res.free_units_sorted ≠ [] then cfg.poll_interval_free_sec
        else cfg.poll_interval_no_free_sec) (deadline - e.t_after) < 1/2 ∨
      deadline - e.t_after ≤ 0) :
    ∃ evs out, cycleStep cfg h deadline state still_sent checked e = .stop evs out := by
  simp only [cycleStep, hres]
  split
  · exact ⟨_, _, rfl⟩
  · split
    · exact ⟨_, _, rfl⟩
    · split
      · exact ⟨_, _, rfl⟩
      · by_cases hr2 : deadline - e.t_after ≤ 0
        · rw [if_pos hr2]
          exact ⟨_, _, rfl⟩
        · have hsl : min (if res.free_units_sorted ≠ [] then cfg.poll_interval_free_sec
              else cfg.poll_interval_no_free_sec) (deadline - e.t_after) < 1/2 := by
            rcases hsmall with hsmall | hsmall
            · exact hsmall
            · exact absurd hsmall hr2
          rw [if_neg hr2, if_pos hsl]
          exact ⟨_, _, rfl⟩

/-- Helper: a stopping iteration makes the rest of the cycle inputs
irrelevant: the loop ends there. -/
theorem runLoop_stop_eq (cfg : Config) (h : String → String) (deadline : ℚ)
    (state : RunState) (still_sent : Nat) (checked : Bool) (e : CycleEnv)
    (rest : List CycleEnv)
    (hstop : ∃ evs out, cycleStep cfg h deadline state still_sent checked e = .stop evs out) :
    runLoop cfg h deadline state still_sent checked (e :: rest) =
      runLoop cfg h deadline state still_sent checked [e] := by
  obtain ⟨evs, out, hco⟩ := hstop
  simp only [runLoop, hco]

/-- C9: a new page fetch is started only when the remaining budget is at
least the minimum-remaining-to-start threshold; every sleep the scheduler
performs is clamped to the remaining budget and is at least the minimal
useful threshold; and when the computed sleep would be below that threshold
(or the budget is spent) the loop stops immediately, without sleeping and
ignoring any further cycles. -/
theorem c9_scheduler_budget (cfg : Config) (h : String → String) (deadline : ℚ) :
    (∀ (state : RunState) (still_sent : Nat) (checked : Bool) (envs : List CycleEnv) (r : ℚ),
      Event.fetchStarted r ∈ (runLoop cfg h deadline state still_sent checked envs).1 →
      cfg.min_remaining_to_start_scrape ≤ r) ∧
    (∀ (state : RunState) (still_sent : Nat) (checked : Bool) (envs : List CycleEnv) (d r : ℚ),
      Event.slept d r ∈ (runLoop cfg h deadline state still_sent checked envs).1 →
      d ≤ r ∧ ¬ d < 1/2) ∧
    (∀ (state : RunState) (still_sent : Nat) (checked : Bool) (e : CycleEnv)
      (rest : List CycleEnv) (res : ScrapeResult),
      scrape_once e.fetch = .ok res →
      (min (if res.free_units_sorted ≠ [] then cfg.poll_interval_free_sec
          else cfg.poll_interval_no_free_sec) (deadline - e.t_after) < 1/2 ∨
        deadline - e.t_after ≤ 0) →
      runLoop cfg h deadline state still_sent checked (e :: rest) =
        runLoop cfg h deadline state still_sent checked [e]) := by
  refine ⟨?_, ?_, ?_⟩
  · intro state still_sent checked envs r hr
    exact runLoop_budget cfg h deadline envs state still_sent checked _ hr
  · intro state still_sent checked envs d r hr
    exact runLoop_budget cfg h deadline envs state still_sent checked _ hr
  · intro state still_sent checked e rest res hres hsmall
    exact runLoop_stop_eq cfg h deadline state still_sent checked e rest
      (cycleStep_stops_when_sleep_small cfg h deadline state still_sent checked e res
        hres hsmall)

/-- A quiet cycle: no anchors, all sends fine; the scheduler sleeps the
no-free interval. -/
def envSleep : CycleEnv where
  now := ⟨2025, 1, 1, 12, 0⟩
  t_check := 0
  t_after := 5
  fetch := .ok []
  hbSendOk := true
  mainSendOk := true
  errSendOk := true

/-- A quiet cycle observed with almost no budget left after the scrape. -/
def envStopQuick : CycleEnv where
  now := ⟨2025, 1, 1, 12, 0⟩
  t_check := 0
  t_after := 50
  fetch := .ok []
  hbSendOk := true
  mainSendOk := true
  errSendOk := true

theorem c9_witness :
    Event.fetchStarted 45 ∈ (runLoop defaultConfig hexStub 45 ⟨"", ""⟩ 0 false [envSleep]).1 ∧
    (8 : ℚ) ≤ 45 ∧
    Event.slept 30 40 ∈ (runLoop defaultConfig hexStub 45 ⟨"", ""⟩ 0 false [envSleep]).1 ∧
    ((30 : ℚ) ≤ 40 ∧ ¬ (30 : ℚ) < 1/2) ∧
    runLoop defaultConfig hexStub 45 ⟨"", ""⟩ 0 false [envStopQuick, envSleep] =
      runLoop defaultConfig hexStub 45 ⟨"", ""⟩ 0 false [envStopQuick] := by
  have hfetch : Event.fetchStarted 45 ∈
      (runLoop defaultConfig hexStub 45 ⟨"", ""⟩ 0 false [envSleep]).1 := by
    norm_num +decide [runLoop, cycleStep, hb_step, message_logic, scrape_once, Except.map,
      process_anchors, scrape_step, emptyScrapeAcc, sort_free_units, free_hash, core, lineOf,
      defaultConfig, envSleep, hexStub, TARGET_TYPES, List.mergeSort, min_def]
  have hslept : Event.slept 30 40 ∈
      (runLoop defaultConfig hexStub 45 ⟨"", ""⟩ 0 false [envSleep]).1 := by
    norm_num +decide [runLoop, cycleStep, hb_step, message_logic, scrape_once, Except.map,
      process_anchors, scrape_step, emptyScrapeAcc, sort_free_units, free_hash, core, lineOf,
      defaultConfig, envSleep, hexStub, TARGET_TYPES, List.mergeSort, min_def]
  refine ⟨hfetch,
    (c9_scheduler_budget defaultConfig hexStub 45).1 ⟨"", ""⟩ 0 false [envSleep] 45 hfetch,
    hslept,
    (c9_scheduler_budget defaultConfig hexStub 45).2.1 ⟨"", ""⟩ 0 false [envSleep] 30 40 hslept,
    (c9_scheduler_budget defaultConfig hexStub 45).2.2 ⟨"", ""⟩ 0 false envStopQuick [envSleep]
      (process_anchors []) rfl (Or.inr (by norm_num [envStopQuick]))⟩

/-- A string free of the two separator characters of the hash payload. -/
def cleanStr (s : String) : Prop := ∀ c ∈ s.data, c ≠ '|' ∧ c ≠ '\n'

/-- A unit whose three fields are free of the separator characters. -/
def cleanUnit (u : FreeUnit) : Prop :=
  cleanStr u.1 ∧ cleanStr u.2.1 ∧ cleanStr (u.2.2.getD "")

/-- Identify an absent link with an empty link; the hash payload renders
both as the empty field. -/
def normLink (u : FreeUnit) : FreeUnit := (u.1, u.2.1, some (u.2.2.getD ""))

/-- Helper: strings with equal character data are equal. -/
theorem string_data_inj {s t : String} (h : s.data = t.data) : s = t := by
  cases s
  cases t
  exact congrArg String.mk h

/-- Helper: splitting at a separator absent from both left parts is
unambiguous. -/
theorem sep_split (sep : Char) : ∀ {xs1 : List Char} {xs2 ys1 ys2 : List Char},
    sep ∉ xs1 → sep ∉ xs2 → xs1 ++ sep :: ys1 = xs2 ++ sep :: ys2 →
    xs1 = xs2 ∧ ys1 = ys2 := by
  intro xs1
  induction xs1 with
  | nil =>
    intro xs2 ys1 ys2 _ h2 heq
    cases xs2 with
    | nil => simpa using heq
    | cons c cs =>
      simp only [List.nil_append, List.cons_append, List.cons.injEq] at heq
      simp only [List.mem_cons, not_or] at h2
      exact absurd heq.1 (fun hh => h2.1 hh)
  | cons c cs ih =>
    intro xs2 ys1 ys2 h1 h2 heq
    cases xs2 with
    | nil =>
      simp only [List.nil_append, List.cons_append, List.cons.injEq] at heq
      simp only [List.mem_cons, not_or] at h1
      exact absurd heq.1.symm (fun hh => h1.1 hh)
    | cons d ds =>
      simp only [List.cons_append, List.cons.injEq] at heq
      obtain ⟨rfl, heq2⟩ := heq
      simp only [List.mem_cons, not_or] at h1 h2
      obtain ⟨hx, hy⟩ := ih h1.2 h2.2 heq2
      exact ⟨by rw [hx], hy⟩

/-- Helper: the character data of one payload line. -/
theorem lineOf_data (u : FreeUnit) :
    (lineOf u).data = u.1.data ++ '|' :: (u.2.1.data ++ '|' :: (u.2.2.getD "").data) := by
  have hp : "|".data = ['|'] := rfl
  simp [lineOf, String.data_append, hp]

/-- Helper: a clean unit's payload line contains no newline. -/
theorem not_mem_lineOf_nl {u : FreeUnit} (hu : cleanUnit u) : '\n' ∉ (lineOf u).data := by
  rw [lineOf_data]
  intro hmem
  rcases List.mem_append.mp hmem with h | h
  · exact (hu.1 _ h).2 rfl
  · rcases List.mem_cons.mp h with h | h
    · exact absurd h (by decide)
    · rcases List.mem_append.mp h with h | h
      · exact (hu.2.1 _ h).2 rfl
      · rcases List.mem_cons.mp h with h | h
        · exact absurd h (by decide)
        · exact (hu.2.2 _ h).2 rfl

/-- Helper: a payload line is never the empty string. -/
theorem lineOf_data_ne_nil (u : FreeUnit) : (lineOf u).data ≠ [] := by
  rw [lineOf_data]
  intro he
  exact absurd (List.append_eq_nil.mp he).2 (by simp)

/-- Helper: clean payload lines determine the unit up to the absent/empty
link identification. -/
theorem lineOf_inj {u v : FreeUnit} (hu : cleanUnit u) (hv : cleanUnit v)
    (h : lineOf u = lineOf v) : normLink u = normLink v := by
  have hd := congrArg String.data h
  rw [lineOf_data, lineOf_data] at hd
  have h1 := sep_split '|' (fun hm => (hu.1 _ hm).1 rfl)
    (fun hm => (hv.1 _ hm).1 rfl) hd
  have h2 := sep_split '|' (fun hm => (hu.2.1 _ hm).1 rfl)
    (fun hm => (hv.2.1 _ hm).1 rfl) h1.2
  have e1 : u.1 = v.1 := string_data_inj h1.1
  have e2 : u.2.1 = v.2.1 := string_data_inj h2.1
  have e3 : u.2.2.getD "" = v.2.2.getD "" := string_data_inj h2.2
  simp [normLink, e1, e2, e3]

/-- Helper: the payload of a non-empty FreeList is never the empty
string. -/
theorem core_ne_empty : ∀ (l : List FreeUnit), l ≠ [] → core l ≠ "" := by
  intro l hl he
  match l, hl with
  | [u], _ =>
    exact lineOf_data_ne_nil u (by simpa using congrArg String.data he)
  | u :: w :: ws, _ =>
    have hd := congrArg String.data he
    rw [show core (u :: w :: ws) = lineOf u ++ "\n" ++ core (w :: ws) from rfl] at hd
    simp only [String.data_append] at hd
    rcases List.append_eq_nil.mp hd with ⟨hl1, _⟩
    rcases List.append_eq_nil.mp hl1 with ⟨hl2, _⟩
    exact lineOf_data_ne_nil u hl2

/-- Helper: on clean FreeLists the payload determines the list up to the
absent/empty link identification. -/
theorem core_inj : ∀ (l1 l2 : List FreeUnit), (∀ u ∈ l1, cleanUnit u) →
    (∀ u ∈ l2, cleanUnit u) → core l1 = core l2 →
    l1.map normLink = l2.map normLink := by
  intro l1
  induction l1 with
  | nil =>
    intro l2 _ h2 heq
    cases l2 with
    | nil => rfl
    | cons v vs => exact absurd heq.symm (core_ne_empty (v :: vs) (by simp))
  | cons u us ih =>
    intro l2 h1 h2 heq
    cases l2 with
    | nil => exact absurd heq (core_ne_empty (u :: us) (by simp))
    | cons v vs =>
      cases us with
      | nil =>
        cases vs with
        | nil =>
          have hline : lineOf u = lineOf v := heq
          have hn := lineOf_inj (h1 u (by simp)) (h2 v (by simp)) hline
          simp [hn]
        | cons w ws =>
          exfalso
          have hd := congrArg String.data heq
          rw [show core [u] = lineOf u from rfl,
            show core (v :: w :: ws) = lineOf v ++ "\n" ++ core (w :: ws) from rfl] at hd
          have hnl : '\n' ∈ (lineOf u).data := by
            rw [hd]
            have hn : "\n".data = ['\n'] := rfl
            simp [String.data_append, hn]
          exact not_mem_lineOf_nl (h1 u (by simp)) hnl
      | cons w ws =>
        cases vs with
        | nil =>
          exfalso
          have hd := congrArg String.data heq
          rw [show core (u :: w :: ws) = lineOf u ++ "\n" ++ core (w :: ws) from rfl,
            show core [v] = lineOf v from rfl] at hd
          have hnl : '\n' ∈ (lineOf v).data := by
            rw [← hd]
            have hn : "\n".data = ['\n'] := rfl
            simp [String.data_append, hn]
          exact not_mem_lineOf_nl (h2 v (by simp)) hnl
        | cons x xs =>
          have hd := congrArg String.data heq
          rw [show core (u :: w :: ws) = lineOf u ++ "\n" ++ core (w :: ws) from rfl,
            show core (v :: x :: xs) = lineOf v ++ "\n" ++ core (x :: xs) from rfl] at hd
          have hn : "\n".data = ['\n'] := rfl
          rw [String.data_append, String.data_append, String.data_append,
            String.data_append, hn, List.append_assoc, List.append_assoc,
            List.singleton_append, List.singleton_append] at hd
          have hs := sep_split '\n' (not_mem_lineOf_nl (h1 u (by simp)))
            (not_mem_lineOf_nl (h2 v (by simp))) hd
          have hline := lineOf_inj (h1 u (by simp)) (h2 v (by simp)) (string_data_inj hs.1)
          have hrest := ih (x :: xs) (fun a ha => h1 a (by simp [ha]))
            (fun a ha => h2 a (by simp [ha])) (string_data_inj hs.2)
          simpa [hline] using hrest

instance (s : String) : Decidable (cleanStr s) := by
  unfold cleanStr
  infer_instance

instance (u : FreeUnit) : Decidable (cleanUnit u) := by
  unfold cleanUnit
  infer_instance

/-- C5 (amended): provided the unit fields contain neither the field
separator nor the line separator, and identifying an absent link with the
empty-string link (the payload renders both identically), any element-level
difference between FreeLists changes the hash payload — hence the signature,
up to collisions of the underlying hash; moreover the signature of a
non-empty FreeList is never the empty-string sentinel, for any hash whose
digests are non-empty, and the empty FreeList always maps to the sentinel. -/
theorem c5_signature_separates :
    (∀ l1 l2 : List FreeUnit, (∀ u ∈ l1, cleanUnit u) → (∀ u ∈ l2, cleanUnit u) →
      l1.map normLink ≠ l2.map normLink → core l1 ≠ core l2) ∧
    (∀ (h : String → String), (∀ s, h s ≠ "") → ∀ l : List FreeUnit, l ≠ [] →
      free_hash h l ≠ "" ∧ free_hash h l ≠ free_hash h []) ∧
    (∀ h : String → String, free_hash h [] = "") := by
  refine ⟨?_, ?_, fun h => rfl⟩
  · intro l1 l2 hc1 hc2 hne heq
    exact hne (core_inj l1 l2 hc1 hc2 heq)
  · intro h hh l hl
    have hcore : core l ≠ "" := core_ne_empty l hl
    have hfh : free_hash h l = h (core l) := if_neg hcore
    constructor
    · rw [hfh]
      exact hh (core l)
    · rw [hfh, show free_hash h [] = "" from rfl]
      exact hh (core l)

theorem c5_witness :
    ((∀ u ∈ ([("a", "1", some "x")] : List FreeUnit), cleanUnit u) ∧
      (([("a", "1", some "x")] : List FreeUnit).map normLink ≠
        ([] : List FreeUnit).map normLink)) ∧
    core [(("a", "1", some "x") : FreeUnit)] ≠ core ([] : List FreeUnit) ∧
    free_hash hexStub [(("a", "1", some "x") : FreeUnit)] ≠ "" ∧
    free_hash hexStub [(("a", "1", some "x") : FreeUnit)] ≠ free_hash hexStub [] := by
  have hne : ∀ s, hexStub s ≠ "" := by
    intro s hs
    have hd := congrArg String.data hs
    have hp : "#".data = ['#'] := rfl
    simp [hexStub, String.data_append, hp] at hd
  refine ⟨⟨by decide, by decide⟩,
    c5_signature_separates.1 [("a", "1", some "x")] [] (by decide) (by decide) (by decide),
    (c5_signature_separates.2.1 hexStub hne [("a", "1", some "x")] (by decide)).1,
    (c5_signature_separates.2.1 hexStub hne [("a", "1", some "x")] (by decide)).2⟩

/-- C5 counterexample: two pairs of FreeLists that differ at element level
yet produce identical hash payloads, so their signatures agree for every
hash function — not merely up to hash collisions: an absent link against an
empty-string link, and a field-separator injection moving characters between
the type and the identifier. -/
theorem c5_counterexample :
    core [(("a", "1", none) : FreeUnit)] = core [(("a", "1", some "") : FreeUnit)] ∧
    (([("a", "1", none)] : List FreeUnit) ≠ [("a", "1", some "")]) ∧
    core [(("x|y", "z", none) : FreeUnit)] = core [(("x", "y|z", none) : FreeUnit)] ∧
    (([("x|y", "z", none)] : List FreeUnit) ≠ [("x", "y|z", none)]) :=
  ⟨by decide, by decide, by decide, by decide⟩

/-- The deduplication key (type, identifier) of a unit; the sort of watch.py
line 134 compares exactly this key. -/
def unitKey (u : FreeUnit) : String × String := (u.1, u.2.1)

/-- Helper: the Boolean sort key unfolded to its ordering proposition. -/
theorem keyLe_iff (a b : FreeUnit) :
    keyLe a b = true ↔ (a.1 < b.1 ∨ (a.1 = b.1 ∧ a.2.1 ≤ b.2.1)) := by
  simp [keyLe]

/-- Helper: the sort key is transitive. -/
theorem keyLe_trans : ∀ a b c : FreeUnit,
    keyLe a b = true → keyLe b c = true → keyLe a c = true := by
  intro a b c hab hbc
  rw [keyLe_iff] at hab hbc ⊢
  rcases hab with hab | ⟨hab1, hab2⟩
  · rcases hbc with hbc | ⟨hbc1, hbc2⟩
    · exact Or.inl (lt_trans hab hbc)
    · exact Or.inl (lt_of_lt_of_eq hab hbc1)
  · rcases hbc with hbc | ⟨hbc1, hbc2⟩
    · exact Or.inl (lt_of_eq_of_lt hab1 hbc)
    · exact Or.inr ⟨hab1.trans hbc1, le_trans hab2 hbc2⟩

/-- Helper: the sort key is total. -/
theorem keyLe_total : ∀ a b : FreeUnit, (keyLe a b || keyLe b a) = true := by
  intro a b
  rw [Bool.or_eq_true, keyLe_iff, keyLe_iff]
  rcases lt_trichotomy a.1 b.1 with hlt | heq | hgt
  · exact Or.inl (Or.inl hlt)
  · rcases le_total a.2.1 b.2.1 with hle | hle
    · exact Or.inl (Or.inr ⟨heq, hle⟩)
    · exact Or.inr (Or.inr ⟨heq.symm, hle⟩)
  · exact Or.inr (Or.inl hgt)

/-- Helper: mutually ordered units share their deduplication key. -/
theorem keyLe_antisymm : ∀ a b : FreeUnit,
    keyLe a b = true → keyLe b a = true → unitKey a = unitKey b := by
  intro a b hab hba
  rw [keyLe_iff] at hab hba
  rcases hab with hab | ⟨hab1, hab2⟩
  · rcases hba with hba | ⟨hba1, hba2⟩
    · exact absurd hba (lt_asymm hab)
    · exact absurd hab (by rw [hba1]; exact lt_irrefl _)
  · rcases hba with hba | ⟨hba1, hba2⟩
    · exact absurd hba (by rw [hab1]; exact lt_irrefl _)
    · simp [unitKey, hab1, le_antisymm hab2 hba2]

/-- Helper: two key-sorted lists with duplicate-free keys that are
permutations of each other are equal. -/
theorem sorted_key_nodup_eq : ∀ {l1 l2 : List FreeUnit}, l1.Perm l2 →
    l1.Pairwise (fun a b => keyLe a b = true) →
    l2.Pairwise (fun a b => keyLe a b = true) →
    (l1.map unitKey).Nodup → l1 = l2 := by
  intro l1
  induction l1 with
  | nil =>
    intro l2 hp _ _ _
    exact hp.nil_eq
  | cons a t1 ih =>
    intro l2 hp hs1 hs2 hnd
    cases l2 with
    | nil => exact absurd hp.symm.nil_eq (by simp)
    | cons b t2 =>
      have ha1 : ∀ x ∈ t1, keyLe a x = true := (List.pairwise_cons.mp hs1).1
      have hb1 : ∀ x ∈ t2, keyLe b x = true := (List.pairwise_cons.mp hs2).1
      have hnd1 : unitKey a ∉ t1.map unitKey := by
        rw [List.map_cons] at hnd
        exact (List.nodup_cons.mp hnd).1
      have hab : a = b := by
        by_contra hne
        have hain : a ∈ b :: t2 := hp.mem_iff.mp (by simp)
        have hbin : b ∈ a :: t1 := hp.symm.mem_iff.mp (by simp)
        rcases List.mem_cons.mp hain with hh | hat2
        · exact hne hh
        rcases List.mem_cons.mp hbin with hh | hbt1
        · exact hne hh.symm
        have hk := keyLe_antisymm a b (ha1 b hbt1) (hb1 a hat2)
        exact hnd1 (hk ▸ List.mem_map_of_mem unitKey hbt1)
      subst hab
      have hrest := ih hp.cons_inv (List.pairwise_cons.mp hs1).2
        (List.pairwise_cons.mp hs2).2
        (by rw [List.map_cons] at hnd; exact (List.nodup_cons.mp hnd).2)
      rw [hrest]

/-- C6: FreeLists that are set-equal as collections of (type, identifier,
link) triples, each free of duplicate (type, identifier) keys, sort to the
same list and therefore yield equal signatures, regardless of input
order. -/
theorem c6_signature_set_equal (h : String → String) (l1 l2 : List FreeUnit)
    (hsub1 : l1 ⊆ l2) (hsub2 : l2 ⊆ l1)
    (hnd1 : (l1.map unitKey).Nodup) (hnd2 : (l2.map unitKey).Nodup) :
    free_hash h (sort_free_units l1) = free_hash h (sort_free_units l2) := by
  have hn1 : l1.Nodup := List.Nodup.of_map unitKey hnd1
  have hn2 : l2.Nodup := List.Nodup.of_map unitKey hnd2
  have hperm : l1.Perm l2 := (List.perm_ext_iff_of_nodup hn1 hn2).mpr
    (fun a => ⟨fun hx => hsub1 hx, fun hx => hsub2 hx⟩)
  have hsp : (sort_free_units l1).Perm (sort_free_units l2) :=
    ((l1.mergeSort_perm keyLe).trans hperm).trans (l2.mergeSort_perm keyLe).symm
  have hs1 : (sort_free_units l1).Pairwise (fun a b => keyLe a b = true) :=
    List.sorted_mergeSort keyLe_trans keyLe_total l1
  have hs2 : (sort_free_units l2).Pairwise (fun a b => keyLe a b = true) :=
    List.sorted_mergeSort keyLe_trans keyLe_total l2
  have hndsort : ((sort_free_units l1).map unitKey).Nodup :=
    (((l1.mergeSort_perm keyLe).map unitKey).nodup_iff).mpr hnd1
  exact congrArg (free_hash h) (sorted_key_nodup_eq hsp hs1 hs2 hndsort)

theorem c6_witness :
    free_hash hexStub (sort_free_units
      [("Komfort-Apartment", "1", none), ("Komfort-Apartment", "2", some "u")]) =
    free_hash hexStub (sort_free_units
      [("Komfort-Apartment", "2", some "u"), ("Komfort-Apartment", "1", none)]) :=
  c6_signature_set_equal hexStub _ _
    (by intro x hx; simp at hx ⊢; tauto)
    (by intro x hx; simp at hx ⊢; tauto)
    (by decide) (by decide)

/-- The in-memory state an outcome still carries (none after a crash). -/
def outState : RunOutcome → Option RunState
  | .finished st => some st
  | .crashed => none
  | .ranOut st _ _ => some st

/-- The heartbeat key recorded by an iteration result, when one is still
available. -/
def contKey : CycleOut → Option String
  | .stop _ out => (outState out).map (fun st => st.last_heartbeat_key)
  | .cont _ st1 _ _ => some st1.last_heartbeat_key

/-- Helper: concatenating traces concatenates their heartbeat times. -/
theorem hbTimes_append (l1 l2 : List Event) :
    hbTimes (l1 ++ l2) = hbTimes l1 ++ hbTimes l2 := by
  induction l1 with
  | nil => simp [hbTimes]
  | cons ev l ih =>
    cases ev with
    | sent m => cases m <;> simp [hbTimes, ih]
    | fetchStarted r => simp [hbTimes, ih]
    | sendFailed m => simp [hbTimes, ih]
    | slept d r => simp [hbTimes, ih]

/-- Helper: failed sends record no heartbeat time. -/
theorem hbTimes_map_sendFailed (msgs : List Msg) :
    hbTimes (msgs.map Event.sendFailed) = [] := by
  induction msgs with
  | nil => rfl
  | cons m l ih => simpa [hbTimes] using ih

/-- Helper: the availability decision never emits a heartbeat. -/
theorem message_logic_no_hb (cfg : Config) (h : String → String)
    (units : List FreeUnit) (last_hash : String) (still_sent : Nat) :
    hbTimes ((message_logic cfg h units last_hash still_sent).1.map Event.sent) = [] := by
  by_cases h1 : units ≠ [] ∧ free_hash h units ≠ last_hash
  · simp [message_logic, h1, hbTimes]
  · by_cases h2 : units ≠ [] ∧ free_hash h units = last_hash
    · by_cases h3 : cfg.send_still_messages = true ∧ still_sent < cfg.max_still_per_run
      · simp [message_logic, h1, h2, h3, hbTimes]
      · simp [message_logic, h1, h2, h3, hbTimes]
    · by_cases h4 : units = [] ∧ last_hash ≠ ""
      · simp [message_logic, h1, h2, h4, hbTimes]
      · simp [message_logic, h1, h2, h4, hbTimes]

/-- The heartbeat bookkeeping of one iteration starting with the flag
already set: no heartbeat is delivered and the recorded key survives
unchanged. -/
def HbCheckedInv (state : RunState) : CycleOut → Prop := fun co =>
  hbTimes (evsOf co) = [] ∧
  (∀ k ∈ contKey co, k = state.last_heartbeat_key) ∧
  (∀ evs st1 still1 ch1, co = .cont evs st1 still1 ch1 → ch1 = true)

/-- Helper: an iteration with `heartbeat_checked` already true delivers no
heartbeat and keeps the key. -/
theorem cycleStep_hb_checked (cfg : Config) (h : String → String) (deadline : ℚ)
    (state : RunState) (still_sent : Nat) (e : CycleEnv) :
    HbCheckedInv state (cycleStep cfg h deadline state still_sent true e) := by
  have hhb : hb_step state true e.now e.hbSendOk = ([], some (state, true)) := rfl
  simp only [cycleStep, hhb]
  repeat' split
  all_goals refine ⟨?_, ?_, ?_⟩
  all_goals first
    | (intro a b c d hco
       cases hco <;> rfl)
    | (simp [evsOf, hbTimes_append, hbTimes, hbTimes_map_sendFailed, message_logic_no_hb]
       done)
    | (intro k hk
       simp [contKey, outState] at hk
       all_goals first
         | exact hk
         | exact hk.symm)

/-- Helper: the three possible outcomes of the heartbeat block on the first
iteration. -/
theorem hb_step_fresh_spec (state : RunState) (now : Dt) (ok : Bool) :
    (hb_step state false now ok = ([], some (state, true))) ∨
    (hb_step state false now ok =
      ([.sent (.heartbeat now)],
       some ({ state with last_heartbeat_key := hb_key_str now }, true)) ∧
      (now.hour = 10 ∨ now.hour = 18) ∧ now.minute < 5 ∧
      state.last_heartbeat_key ≠ hb_key_str now) ∨
    (hb_step state false now ok = ([.sendFailed (.heartbeat now)], none)) := by
  unfold hb_step
  rw [if_neg (by simp)]
  split
  · rename_i hw
    split
    · rename_i hk
      split
      · exact Or.inr (Or.inl ⟨rfl, hw.1, hw.2, hk⟩)
      · exact Or.inr (Or.inr rfl)
    · exact Or.inl rfl
  · exact Or.inl rfl

/-- The heartbeat bookkeeping of one first iteration: either no heartbeat is
delivered and the key survives, or exactly one heartbeat is delivered, at
the cycle's wall-clock time inside the configured window, against a key that
differed, and the key is updated to the newly formatted one; in either case
a continuing iteration sets the checked flag. -/
def HbFreshInv (state : RunState) (e : CycleEnv) : CycleOut → Prop := fun co =>
  (∀ evs st1 still1 ch1, co = .cont evs st1 still1 ch1 → ch1 = true) ∧
  ((hbTimes (evsOf co) = [] ∧ ∀ k ∈ contKey co, k = state.last_heartbeat_key) ∨
   (hbTimes (evsOf co) = [e.now] ∧
     (e.now.hour = 10 ∨ e.now.hour = 18) ∧ e.now.minute < 5 ∧
     state.last_heartbeat_key ≠ hb_key_str e.now ∧
     ∀ k ∈ contKey co, k = hb_key_str e.now))

/-- Helper: the first iteration obeys the heartbeat bookkeeping. -/
theorem cycleStep_hb_fresh (cfg : Config) (h : String → String) (deadline : ℚ)
    (state : RunState) (still_sent : Nat) (e : CycleEnv) :
    HbFreshInv state e (cycleStep cfg h deadline state still_sent false e) := by
  rcases hb_step_fresh_spec state e.now e.hbSendOk with hsp | ⟨hsp, hw1, hw2, hk⟩ | hsp
  · simp only [cycleStep, hsp]
    repeat' split
    all_goals refine ⟨?_, Or.inl ⟨?_, ?_⟩⟩
    all_goals first
      | (intro a b c d hco
         cases hco <;> rfl)
      | (simp [evsOf, hbTimes_append, hbTimes, hbTimes_map_sendFailed, message_logic_no_hb]
         done)
      | (intro k hk2
         simp [contKey, outState] at hk2
         all_goals first
           | exact hk2
           | exact hk2.symm)
  · simp only [cycleStep, hsp]
    split
    · refine ⟨fun a b c d hco => (by cases hco), Or.inl ⟨rfl, ?_⟩⟩
      intro k hk2
      simp [contKey, outState] at hk2
      exact hk2.symm
    · split
      · refine ⟨fun a b c d hco => (by cases hco), Or.inl ⟨?_, ?_⟩⟩
        · split <;> simp [evsOf, hbTimes_append, hbTimes]
        · intro k hk2
          simp [contKey, outState] at hk2
          exact hk2.symm
      · repeat' split
        all_goals refine ⟨?_, Or.inr ⟨?_, hw1, hw2, hk, ?_⟩⟩
        all_goals first
          | (intro a b c d hco
             cases hco <;> rfl)
          | (simp [evsOf, hbTimes_append, hbTimes, hbTimes_map_sendFailed, message_logic_no_hb]
             done)
          | (intro k hk2
             simp [contKey, outState] at hk2
             all_goals first
               | exact hk2
               | exact hk2.symm)
  · simp only [cycleStep, hsp]
    repeat' split
    all_goals refine ⟨?_, Or.inl ⟨?_, ?_⟩⟩
    all_goals first
      | (intro a b c d hco
         cases hco <;> rfl)
      | (simp [evsOf, hbTimes_append, hbTimes, hbTimes_map_sendFailed, message_logic_no_hb]
         done)
      | (intro k hk2
         simp [contKey, outState] at hk2
         all_goals first
           | exact hk2
           | exact hk2.symm)

/-- Helper: a loop whose heartbeat flag is already set delivers no heartbeat
and preserves the persisted key. -/
theorem runLoop_hb_checked (cfg : Config) (h : String → String) (deadline : ℚ) :
    ∀ (envs : List CycleEnv) (state : RunState) (still_sent : Nat),
    hbTimes (runLoop cfg h deadline state still_sent true envs).1 = [] ∧
    (∀ st1, outState (runLoop cfg h deadline state still_sent true envs).2 = some st1 →
      st1.last_heartbeat_key = state.last_heartbeat_key) := by
  intro envs
  induction envs with
  | nil =>
    intro state still_sent
    refine ⟨rfl, ?_⟩
    intro st1 h1
    simp only [runLoop, outState, Option.some.injEq] at h1
    rw [← h1]
  | cons e rest ih =>
    intro state still_sent
    have hc := cycleStep_hb_checked cfg h deadline state still_sent e
    simp only [runLoop]
    split
    · rename_i evs out heq
      rw [heq] at hc
      obtain ⟨hevs, hkey, _⟩ := hc
      refine ⟨hevs, ?_⟩
      intro st1 h1
      exact hkey _ (by simp [contKey, h1])
    · rename_i evs st2 still2 ch2 heq
      rw [heq] at hc
      obtain ⟨hevs, hkey, hch⟩ := hc
      have hch2 : ch2 = true := hch evs st2 still2 ch2 rfl
      subst hch2
      obtain ⟨ihevs, ihkey⟩ := ih st2 still2
      constructor
      · show hbTimes (evs ++ (runLoop cfg h deadline st2 still2 true rest).1) = []
        rw [hbTimes_append, ihevs]
        simpa [evsOf] using hevs
      · intro st1 h1
        have hk2 : st1.last_heartbeat_key = st2.last_heartbeat_key := ihkey st1 h1
        rw [hk2]
        exact hkey _ (by simp [contKey])

/-- Helper: a whole run delivers at most one heartbeat; when it does, the
heartbeat happens at the wall-clock time of one of the run's cycles, inside
the configured window, against a differing persisted key, which the run then
carries forward. -/
theorem runLoop_hb_fresh (cfg : Config) (h : String → String) (deadline : ℚ)
    (envs : List CycleEnv) (state : RunState) (still_sent : Nat) :
    (hbTimes (runLoop cfg h deadline state still_sent false envs).1 = [] ∧
      (∀ st1, outState (runLoop cfg h deadline state still_sent false envs).2 = some st1 →
        st1.last_heartbeat_key = state.last_heartbeat_key)) ∨
    (∃ t, hbTimes (runLoop cfg h deadline state still_sent false envs).1 = [t] ∧
      (∃ e ∈ envs, t = e.now) ∧
      (t.hour = 10 ∨ t.hour = 18) ∧ t.minute < 5 ∧
      state.last_heartbeat_key ≠ hb_key_str t ∧
      (∀ st1, outState (runLoop cfg h deadline state still_sent false envs).2 = some st1 →
        st1.last_heartbeat_key = hb_key_str t)) := by
  cases envs with
  | nil =>
    refine Or.inl ⟨rfl, ?_⟩
    intro st1 h1
    simp only [runLoop, outState, Option.some.injEq] at h1
    rw [← h1]
  | cons e rest =>
    have hc := cycleStep_hb_fresh cfg h deadline state still_sent e
    simp only [runLoop]
    split
    · rename_i evs out heq
      rw [heq] at hc
      obtain ⟨_, hdisj⟩ := hc
      rcases hdisj with ⟨hevs, hkey⟩ | ⟨hevs, hw1, hw2, hkne, hkey⟩
      · refine Or.inl ⟨by simpa [evsOf] using hevs, ?_⟩
        intro st1 h1
        exact hkey _ (by simp [contKey, h1])
      · refine Or.inr ⟨e.now, by simpa [evsOf] using hevs,
          ⟨e, by simp, rfl⟩, hw1, hw2, hkne, ?_⟩
        intro st1 h1
        exact hkey _ (by simp [contKey, h1])
    · rename_i evs st2 still2 ch2 heq
      rw [heq] at hc
      obtain ⟨hch, hdisj⟩ := hc
      have hch2 : ch2 = true := hch evs st2 still2 ch2 rfl
      subst hch2
      obtain ⟨ihevs, ihkey⟩ := runLoop_hb_checked cfg h deadline rest st2 still2
      rcases hdisj with ⟨hevs, hkey⟩ | ⟨hevs, hw1, hw2, hkne, hkey⟩
      · refine Or.inl ⟨?_, ?_⟩
        · show hbTimes (evs ++ (runLoop cfg h deadline st2 still2 true rest).1) = []
          rw [hbTimes_append, ihevs]
          simpa [evsOf] using hevs
        · intro st1 h1
          have hk2 : st1.last_heartbeat_key = st2.last_heartbeat_key := ihkey st1 h1
          rw [hk2]
          exact hkey _ (by simp [contKey])
      · refine Or.inr ⟨e.now, ?_, ⟨e, by simp, rfl⟩, hw1, hw2, hkne, ?_⟩
        · show hbTimes (evs ++ (runLoop cfg h deadline st2 still2 true rest).1) = [e.now]
          rw [hbTimes_append, ihevs]
          simpa [evsOf] using hevs
        · intro st1 h1
          have hk2 : st1.last_heartbeat_key = st2.last_heartbeat_key := ihkey st1 h1
          rw [hk2]
          exact hkey _ (by simp [contKey])

instance : IsTrans Dt (fun t u => dhIdx t < dhIdx u) :=
  ⟨fun _ _ _ hab hbc => Nat.lt_trans hab hbc⟩

/-- Helper: within sane calendar bounds the numeric (date, hour) encoding
determines the heartbeat key. -/
theorem dhIdx_inj (t u : Dt) (ht : t.month < 100 ∧ t.day < 100 ∧ t.hour < 100)
    (hu : u.month < 100 ∧ u.day < 100 ∧ u.hour < 100) (h : dhIdx t = dhIdx u) :
    hb_key_str t = hb_key_str u := by
  obtain ⟨h1, h2, h3, h4⟩ : t.year = u.year ∧ t.month = u.month ∧
      t.day = u.day ∧ t.hour = u.hour := by
    unfold dhIdx at h
    omega
  simp [hb_key_str, h1, h2, h3, h4]

/-- Helper: equal (date, hour) pairs give equal numeric encodings. -/
theorem dhPair_dhIdx {t u : Dt} (h : dhPair t = dhPair u) : dhIdx t = dhIdx u := by
  simp only [dhPair, Prod.mk.injEq] at h
  simp [dhIdx, h.1, h.2.1, h.2.2.1, h.2.2.2]

/-- Helper: a strictly increasing (date, hour) sequence visits each pair at
most once. -/
theorem pairwise_dh_count {ts : List Dt}
    (hp : ts.Pairwise (fun t u => dhIdx t < dhIdx u)) :
    ∀ p : Nat × Nat × Nat × Nat, ts.countP (fun t => decide (dhPair t = p)) ≤ 1 := by
  intro p
  induction hp with
  | nil => simp
  | @cons t ts hhead htail ih =>
    rw [List.countP_cons]
    by_cases hc : dhPair t = p
    · have hzero : ts.countP (fun u => decide (dhPair u = p)) = 0 := by
        rw [List.countP_eq_zero]
        intro u hu
        simp only [decide_eq_true_eq]
        intro hcu
        have hdh : dhIdx t = dhIdx u := dhPair_dhIdx (hc.trans hcu.symm)
        have := hhead u hu
        omega
      simp [hzero, hc]
    · simp [hc]
      exact ih

/-- Helper: every heartbeat of a run sequence lies inside the configured
hour set and minute window. -/
theorem runSeq_hb_window (cfg : Config) (h : String → String) :
    ∀ (runs : List RunSpec) (persisted : RunState),
    ∀ t ∈ hbTimes (runSeq cfg h persisted runs).1,
      (t.hour = 10 ∨ t.hour = 18) ∧ t.minute < 5 := by
  intro runs
  induction runs with
  | nil =>
    intro persisted t ht
    simp [runSeq, hbTimes] at ht
  | cons r rest ih =>
    intro persisted t ht
    have hrl : ∀ u ∈ hbTimes (runLoop cfg h (r.start + cfg.run_window_sec)
        persisted 0 false r.envs).1, (u.hour = 10 ∨ u.hour = 18) ∧ u.minute < 5 := by
      rcases runLoop_hb_fresh cfg h (r.start + cfg.run_window_sec) r.envs persisted 0 with
        ⟨hnil, _⟩ | ⟨t0, hone, _, hw1, hw2, _, _⟩
      · rw [hnil]
        simp
      · rw [hone]
        intro u hu
        rcases List.mem_singleton.mp hu with rfl
        exact ⟨hw1, hw2⟩
    simp only [runSeq] at ht
    split at ht
    · rename_i st1 heq
      rw [show ((runLoop cfg h (r.start + cfg.run_window_sec) persisted 0 false r.envs).1 ++
          (runSeq cfg h st1 rest).1, (runSeq cfg h st1 rest).2).1 =
          (runLoop cfg h (r.start + cfg.run_window_sec) persisted 0 false r.envs).1 ++
          (runSeq cfg h st1 rest).1 from rfl, hbTimes_append, List.mem_append] at ht
      rcases ht with ht | ht
      · exact hrl t ht
      · exact ih st1 t ht
    · rw [show ((runLoop cfg h (r.start + cfg.run_window_sec) persisted 0 false r.envs).1 ++
          (runSeq cfg h persisted rest).1, (runSeq cfg h persisted rest).2).1 =
          (runLoop cfg h (r.start + cfg.run_window_sec) persisted 0 false r.envs).1 ++
          (runSeq cfg h persisted rest).1 from rfl, hbTimes_append, List.mem_append] at ht
      rcases ht with ht | ht
      · exact hrl t ht
      · exact ih persisted t ht

/-- Helper: the head given by head? is a member. -/
theorem mem_of_head_eq {α : Type} {l : List α} {a : α} (h : l.head? = some a) : a ∈ l := by
  cases l with
  | nil => cases h
  | cons b t =>
    simp only [List.head?_cons, Option.some.injEq] at h
    rw [← h]
    exact List.mem_cons_self b t

/-- Helper: across a sequence of normally-terminating invocations whose wall
clock never runs backwards, the delivered heartbeats have strictly
increasing (date, hour) encodings, the first one was sent against a
differing persisted key, and every heartbeat time is the wall-clock time of
some cycle. -/
theorem runSeq_hb_chain (cfg : Config) (h : String → String) :
    ∀ (runs : List RunSpec) (persisted : RunState),
    allFinished cfg h persisted runs = true →
    (∀ r ∈ runs, ∀ e ∈ r.envs,
      e.now.month < 100 ∧ e.now.day < 100 ∧ e.now.hour < 100) →
    ((runs.map RunSpec.envs).flatten.map (fun e => dhIdx e.now)).Pairwise (· ≤ ·) →
    List.Chain' (fun t u => dhIdx t < dhIdx u) (hbTimes (runSeq cfg h persisted runs).1) ∧
    (∀ t, (hbTimes (runSeq cfg h persisted runs).1).head? = some t →
      persisted.last_heartbeat_key ≠ hb_key_str t) ∧
    (∀ t ∈ hbTimes (runSeq cfg h persisted runs).1,
      ∃ e ∈ (runs.map RunSpec.envs).flatten, t = e.now) := by
  intro runs
  induction runs with
  | nil =>
    intro persisted _ _ _
    exact ⟨by simp [runSeq, hbTimes], by simp [runSeq, hbTimes], by simp [runSeq, hbTimes]⟩
  | cons r rest ih =>
    intro persisted hfin hbound hmono
    cases hout : (runLoop cfg h (r.start + cfg.run_window_sec) persisted 0 false r.envs).2 with
    | crashed => simp only [allFinished, hout, Bool.false_eq_true] at hfin
    | ranOut st1 sc hc2 => simp only [allFinished, hout, Bool.false_eq_true] at hfin
    | finished st1 =>
      simp only [allFinished, hout] at hfin
      have hseq : runSeq cfg h persisted (r :: rest) =
          ((runLoop cfg h (r.start + cfg.run_window_sec) persisted 0 false r.envs).1 ++
            (runSeq cfg h st1 rest).1, (runSeq cfg h st1 rest).2) := by
        simp only [runSeq, hout]
      have hflat : (List.map RunSpec.envs (r :: rest)).flatten =
          r.envs ++ (List.map RunSpec.envs rest).flatten := by simp
      rw [hflat, List.map_append] at hmono
      obtain ⟨hm1, hm2, hmcross⟩ := List.pairwise_append.mp hmono
      obtain ⟨ihchain, ihhead, ihmem⟩ := ih st1 hfin
        (fun rr hrr => hbound rr (List.mem_cons_of_mem r hrr)) hm2
      rcases runLoop_hb_fresh cfg h (r.start + cfg.run_window_sec) r.envs persisted 0 with
        ⟨hnil, hkeep⟩ | ⟨t0, hone, ⟨e0, he0, ht0⟩, hw1, hw2, hkne, hkeyset⟩
      · have hkeep1 : st1.last_heartbeat_key = persisted.last_heartbeat_key :=
          hkeep st1 (by rw [hout]; rfl)
        have htr : hbTimes (runSeq cfg h persisted (r :: rest)).1 =
            hbTimes (runSeq cfg h st1 rest).1 := by
          rw [hseq]
          show hbTimes (_ ++ _) = _
          rw [hbTimes_append, hnil, List.nil_append]
        refine ⟨by rw [htr]; exact ihchain, ?_, ?_⟩
        · intro t ht
          rw [htr] at ht
          have hne := ihhead t ht
          rw [← hkeep1]
          exact hne
        · intro t ht
          rw [htr] at ht
          obtain ⟨e1, he1, rfl⟩ := ihmem t ht
          exact ⟨e1, by rw [hflat]; exact List.mem_append_right _ he1, rfl⟩
      · have hkeyset1 : st1.last_heartbeat_key = hb_key_str t0 :=
          hkeyset st1 (by rw [hout]; rfl)
        have htr : hbTimes (runSeq cfg h persisted (r :: rest)).1 =
            t0 :: hbTimes (runSeq cfg h st1 rest).1 := by
          rw [hseq]
          show hbTimes (_ ++ _) = _
          rw [hbTimes_append, hone, List.singleton_append]
        refine ⟨?_, ?_, ?_⟩
        · rw [htr, List.chain'_cons']
          constructor
          · intro t1 ht1
            have hh : (hbTimes (runSeq cfg h st1 rest).1).head? = some t1 :=
              Option.mem_def.mp ht1
            have hne := ihhead t1 hh
            have ht1mem := mem_of_head_eq hh
            obtain ⟨e1, he1, rfl⟩ := ihmem t1 ht1mem
            have hle : dhIdx e0.now ≤ dhIdx e1.now :=
              hmcross _ (List.mem_map_of_mem _ he0) _ (List.mem_map_of_mem _ he1)
            have hb0 := hbound r (List.mem_cons_self r rest) e0 he0
            have hb1 : e1.now.month < 100 ∧ e1.now.day < 100 ∧ e1.now.hour < 100 := by
              obtain ⟨l1, hl1, he1x⟩ := List.mem_flatten.mp he1
              obtain ⟨rr, hrr, rfl⟩ := List.mem_map.mp hl1
              exact hbound rr (List.mem_cons_of_mem r hrr) e1 he1x
            have hneq : dhIdx e0.now ≠ dhIdx e1.now := by
              intro hdd
              have hfmt := dhIdx_inj e0.now e1.now hb0 hb1 hdd
              exact hne (by rw [hkeyset1, ht0]; exact hfmt)
            rw [ht0]
            exact lt_of_le_of_ne hle hneq
          · exact ihchain
        · intro t ht
          rw [htr] at ht
          simp only [List.head?_cons, Option.some.injEq] at ht
          rw [← ht]
          exact hkne
        · intro t ht
          rw [htr] at ht
          rcases List.mem_cons.mp ht with rfl | ht
          · exact ⟨e0, by rw [hflat]; exact List.mem_append_left _ he0, ht0⟩
          · obtain ⟨e1, he1, rfl⟩ := ihmem t ht
            exact ⟨e1, by rw [hflat]; exact List.mem_append_right _ he1, rfl⟩

/-- C8 (amended): across any number of poll cycles and sequential
invocations sharing the persisted state, provided every invocation
terminates normally (so `save_state` runs) and the wall clock never runs
backwards across cycles, a heartbeat notification is delivered at most once
per (calendar date, hour) pair; and no heartbeat is ever delivered when the
hour is outside the configured set or the minute is at or past the
configured window. -/
theorem c8_heartbeat_once (cfg : Config) (h : String → String) (st0 : RunState)
    (runs : List RunSpec)
    (hfin : allFinished cfg h st0 runs = true)
    (hbound : ∀ r ∈ runs, ∀ e ∈ r.envs,
      e.now.month < 100 ∧ e.now.day < 100 ∧ e.now.hour < 100)
    (hmono : ((runs.map RunSpec.envs).flatten.map (fun e => dhIdx e.now)).Pairwise (· ≤ ·)) :
    (∀ p : Nat × Nat × Nat × Nat,
      (hbTimes (runSeq cfg h st0 runs).1).countP (fun t => decide (dhPair t = p)) ≤ 1) ∧
    (∀ t ∈ hbTimes (runSeq cfg h st0 runs).1,
      (t.hour = 10 ∨ t.hour = 18) ∧ t.minute < 5) := by
  obtain ⟨hchain, _, _⟩ := runSeq_hb_chain cfg h runs st0 hfin hbound hmono
  exact ⟨pairwise_dh_count (List.chain'_iff_pairwise.mp hchain),
    runSeq_hb_window cfg h runs st0⟩

/-- A quiet first cycle inside the heartbeat window; the run then stops and
saves its state. -/
def envHb : CycleEnv where
  now := ⟨2025, 1, 1, 10, 0⟩
  t_check := 0
  t_after := 50
  fetch := .ok []
  hbSendOk := true
  mainSendOk := true
  errSendOk := true

theorem c8_witness :
    allFinished defaultConfig hexStub ⟨"", ""⟩ [⟨0, [envHb]⟩] = true ∧
    hbTimes (runSeq defaultConfig hexStub ⟨"", ""⟩ [⟨0, [envHb]⟩]).1 =
      [⟨2025, 1, 1, 10, 0⟩] ∧
    (hbTimes (runSeq defaultConfig hexStub ⟨"", ""⟩ [⟨0, [envHb]⟩]).1).countP
      (fun t => decide (dhPair t = (2025, 1, 1, 10))) ≤ 1 := by
  have hfin : allFinished defaultConfig hexStub ⟨"", ""⟩ [⟨0, [envHb]⟩] = true := by
    norm_num +decide [allFinished, runSeq, runLoop, cycleStep, hb_step, message_logic,
      scrape_once, Except.map, process_anchors, scrape_step, emptyScrapeAcc,
      sort_free_units, List.mergeSort, free_hash, core, lineOf, defaultConfig, envHb,
      hexStub, TARGET_TYPES, hb_key_str, pad2, pad4, min_def]
  refine ⟨hfin, ?_,
    (c8_heartbeat_once defaultConfig hexStub ⟨"", ""⟩ [⟨0, [envHb]⟩] hfin
      (by decide) (by simp)).1 (2025, 1, 1, 10)⟩
  norm_num +decide [allFinished, runSeq, runLoop, cycleStep, hb_step, message_logic,
    scrape_once, Except.map, process_anchors, scrape_step, emptyScrapeAcc,
    sort_free_units, List.mergeSort, free_hash, core, lineOf, defaultConfig, envHb,
    hexStub, TARGET_TYPES, hb_key_str, pad2, pad4, min_def, hbTimes]

/-- A first cycle inside the heartbeat window that delivers the heartbeat
and then dies on the unguarded ALERT send, so the updated key is never
persisted. -/
def envHbCrash : CycleEnv where
  now := ⟨2025, 1, 1, 10, 0⟩
  t_check := 0
  t_after := 5
  fetch := .ok [⟨"Komfort-Apartment", "12", some "frei", false, none⟩]
  hbSendOk := true
  mainSendOk := false
  errSendOk := true

/-- A later quiet cycle in the same hour, three minutes later. -/
def envHb2 : CycleEnv where
  now := ⟨2025, 1, 1, 10, 3⟩
  t_check := 0
  t_after := 50
  fetch := .ok []
  hbSendOk := true
  mainSendOk := true
  errSendOk := true

/-- C8 counterexample: two sequential invocations sharing the state file,
with forward-moving wall clock, deliver two heartbeats inside the same
(date, hour) pair, because the first invocation crashed on its unguarded
ALERT send after the heartbeat and never persisted the updated key. -/
theorem c8_counterexample :
    (hbTimes (runSeq defaultConfig hexStub ⟨"", ""⟩
        [⟨0, [envHbCrash]⟩, ⟨0, [envHb2]⟩]).1).countP
      (fun t => decide (dhPair t = (2025, 1, 1, 10))) = 2 := by
  norm_num +decide [allFinished, runSeq, runLoop, cycleStep, hb_step, message_logic,
    scrape_once, Except.map, process_anchors, scrape_step, emptyScrapeAcc,
    sort_free_units, List.mergeSort, free_hash, core, lineOf, defaultConfig, envHbCrash,
    envHb2, hexStub, TARGET_TYPES, hb_key_str, pad2, pad4, min_def, hbTimes, dhPair,
    List.countP_cons]
